import Mathlib

/-!
Verification of the simulation core of a tile-based dungeon-crawler.

The development shallowly embeds the relevant source functions:
* the enemy AI engine (pathfinding `findPath`, line-of-sight
  `hasLineOfSight`, from the `EnemyAI` class),
* the frame orchestrator's own Bresenham line-of-sight, combat
  resolution, spawner lifecycle, stuck detection and the health-drain
  timer (from the `BabylonMode` component).

Conventions:
* Pixel coordinates are rationals (`ℚ`); JavaScript numbers are doubles,
  but all the arithmetic in the claims is exact on the dyadic inputs
  involved, so `ℚ` is a faithful carrier.
* `Math.sqrt(d) ⋚ c` comparisons are embedded by the equivalent
  square comparisons (`Real.sqrt` is monotone on nonnegatives and every
  compared bound is nonnegative at each call site); the three helper
  predicates `sqrtLeB`, `sqrtLtB`, `sqrtGtB` record exactly this.
* `Date.now()` timestamps are integers (milliseconds).
* JavaScript `Math.random()` draws are passed in as explicit parameters,
  since they are external inputs of the frame.

The file lists all definitions first, then all theorems.
-/

namespace Adventure

/-- 2-D pixel-space vector, `{x, y}` in the source. -/
structure Vec2 where
  x : ℚ
  y : ℚ
deriving DecidableEq, Repr

/-- Squared Euclidean distance: `dx*dx + dy*dy` before the `Math.sqrt`. -/
def sqDist (a b : Vec2) : ℚ :=
  (a.x - b.x) * (a.x - b.x) + (a.y - b.y) * (a.y - b.y)

/-- Embedding of `Math.sqrt s <= c` (for `s ≥ 0`): `0 ≤ c ∧ s ≤ c²`. -/
def sqrtLeB (s c : ℚ) : Bool := decide (0 ≤ c ∧ s ≤ c ^ 2)

/-- Embedding of `Math.sqrt s < c` (for `s ≥ 0`): `0 < c ∧ s < c²`. -/
def sqrtLtB (s c : ℚ) : Bool := decide (0 < c ∧ s < c ^ 2)

/-- Embedding of `Math.sqrt s > c` (for `s ≥ 0`): `c < 0 ∨ c² < s`. -/
def sqrtGtB (s c : ℚ) : Bool := decide (c < 0 ∨ c ^ 2 < s)

/-- A tile grid: rows of single-character tile codes (`map: string[][]`). -/
abbrev Grid := List (List Char)

/-- `map[y]?.[x]`: `none` when either index is negative or out of range. -/
def tileAt? (map : Grid) (x y : ℤ) : Option Char :=
  if 0 ≤ x ∧ 0 ≤ y then (map.get? y.toNat).bind (fun row => row.get? x.toNat)
  else none

/-- Width used by the source's bounds checks: `map[0].length`. -/
def gridWidth (map : Grid) : ℕ := (map.headD []).length

/-! ## The AI engine (`EnemyAI` class): definitions

`hasLineOfSight(start, end, map, enemyType)` steps along the segment in
tile-sized increments; `findPath(start, end, map, enemyType)` is the
bounded A* search.  `tileSize` (the class field, 32 by default) is
passed explicitly as `ts`. -/

namespace EnemyAI

/-- The tile x-index sampled at step `i`: `Math.floor((start.x + stepX*i) / tileSize)`. -/
def sampleTileX (ts : ℚ) (startX stepX : ℚ) (i : ℕ) : ℤ :=
  ⌊(startX + stepX * i) / ts⌋

/-- The tile y-index sampled at step `i`. -/
def sampleTileY (ts : ℚ) (startY stepY : ℚ) (i : ℕ) : ℤ :=
  ⌊(startY + stepY * i) / ts⌋

/-- The bounds test of the sampling loop:
`tileX < 0 || tileX >= map[0].length || tileY < 0 || tileY >= map.length`. -/
def sampleOutOfBounds (map : Grid) (tx ty : ℤ) : Bool :=
  decide (tx < 0 ∨ (gridWidth map : ℤ) ≤ tx ∨ ty < 0 ∨ (map.length : ℤ) ≤ ty)

/-- The body of `for (let i = 0; i <= steps; i++)` in `hasLineOfSight`,
as a recursion on the number of remaining samples.  `ghost` is
`enemyType === 'ghost'`. -/
def losLoop (ts : ℚ) (map : Grid) (ghost : Bool) (startX startY stepX stepY : ℚ) :
    ℕ → ℕ → Bool
  | _, 0 => true
  | i, rem + 1 =>
    let tx := sampleTileX ts startX stepX i
    let ty := sampleTileY ts startY stepY i
    if sampleOutOfBounds map tx ty then false
    else if ¬ghost ∧ tileAt? map tx ty = some '#' then false
    else losLoop ts map ghost startX startY stepX stepY (i + 1) rem

/-- `EnemyAI.hasLineOfSight(start, end, map, enemyType)`.
`steps = Math.max(|dx|, |dy|) / tileSize`; the loop samples
`i = 0 .. ⌊steps⌋`. -/
def hasLineOfSight (ts : ℚ) (start stop : Vec2) (map : Grid)
    (enemyType : Option String) : Bool :=
  let dx := |stop.x - start.x|
  let dy := |stop.y - start.y|
  let steps := max dx dy / ts
  if steps = 0 then true
  else
    let stepX := (stop.x - start.x) / steps
    let stepY := (stop.y - start.y) / steps
    losLoop ts map (enemyType = some "ghost") start.x start.y stepX stepY 0
      (⌊steps⌋.toNat + 1)

/-- One sample of the loop passes iff it is in bounds and, for a
non-ghost mover, is not a wall tile. -/
def samplePasses (ts : ℚ) (map : Grid) (ghost : Bool)
    (startX startY stepX stepY : ℚ) (i : ℕ) : Prop :=
  sampleOutOfBounds map (sampleTileX ts startX stepX i)
      (sampleTileY ts startY stepY i) = false ∧
    (ghost = true ∨
      tileAt? map (sampleTileX ts startX stepX i)
        (sampleTileY ts startY stepY i) ≠ some '#')

instance (ts : ℚ) (map : Grid) (ghost : Bool) (startX startY stepX stepY : ℚ)
    (i : ℕ) : Decidable (samplePasses ts map ghost startX startY stepX stepY i) := by
  unfold samplePasses; infer_instance

/-- A* search node: grid coordinates, f/g/h costs and the parent
back-pointer used for path reconstruction. -/
inductive PathNode where
  | mk (x y : ℤ) (f g h : ℤ) (parent : Option PathNode)

def PathNode.x : PathNode → ℤ
  | .mk x _ _ _ _ _ => x

def PathNode.y : PathNode → ℤ
  | .mk _ y _ _ _ _ => y

def PathNode.f : PathNode → ℤ
  | .mk _ _ f _ _ _ => f

def PathNode.g : PathNode → ℤ
  | .mk _ _ _ g _ _ => g

def PathNode.h : PathNode → ℤ
  | .mk _ _ _ _ h _ => h

def PathNode.parent : PathNode → Option PathNode
  | .mk _ _ _ _ _ p => p

/-- `calculateHeuristic`: Manhattan distance times 10. -/
def calculateHeuristic (ax ay bx by_ : ℤ) : ℤ :=
  10 * (|ax - bx| + |ay - by_|)

/-- The linear scan for the open-list node with the lowest `f`
(`for (let i = 1; ...) if (openList[i].f < currentNode.f) ...`):
returns the index of the first strict minimum, scanned left to right. -/
def lowestFIdx (l : List PathNode) : ℕ :=
  match l with
  | [] => 0
  | n0 :: rest =>
    (rest.foldl
      (fun (acc : ℕ × ℤ × ℕ) nd =>
        if nd.f < acc.2.1 then (acc.2.2, nd.f, acc.2.2 + 1)
        else (acc.1, acc.2.1, acc.2.2 + 1))
      (0, n0.f, 1)).1

/-- The four orthogonal neighbors, in source order (left, right, up, down). -/
def neighborsOf (n : PathNode) : List (ℤ × ℤ) :=
  [(n.x - 1, n.y), (n.x + 1, n.y), (n.x, n.y - 1), (n.x, n.y + 1)]

/-- The body of the neighbor loop: bounds check, wall check (skipped for
ghosts), closed-list check, then either push a new node or improve an
existing open node when the new `g` is strictly smaller (updating its
`g`, `f` and parent, as the source mutation does). -/
def processNeighbor (map : Grid) (ghost : Bool) (endX endY : ℤ)
    (current : PathNode) (closed : List PathNode)
    (opn : List PathNode) (nb : ℤ × ℤ) : List PathNode :=
  if nb.1 < 0 ∨ (gridWidth map : ℤ) ≤ nb.1 ∨ nb.2 < 0 ∨ (map.length : ℤ) ≤ nb.2 then
    opn
  else if ¬ghost ∧ tileAt? map nb.1 nb.2 = some '#' then opn
  else if closed.any (fun nd => nd.x = nb.1 ∧ nd.y = nb.2) then opn
  else
    let gCost := current.g + 10
    let hCost := calculateHeuristic nb.1 nb.2 endX endY
    let fCost := gCost + hCost
    if opn.any (fun nd => nd.x = nb.1 ∧ nd.y = nb.2) then
      opn.map (fun nd =>
        if nd.x = nb.1 ∧ nd.y = nb.2 ∧ gCost < nd.g then
          PathNode.mk nd.x nd.y fCost gCost nd.h (some current)
        else nd)
    else opn ++ [PathNode.mk nb.1 nb.2 fCost gCost hCost (some current)]

/-- Path reconstruction: walk the parent chain, collecting pixel-space
tile centers start-first (the source `unshift`s into `path`). -/
def reconstructPath (ts : ℚ) : PathNode → List Vec2
  | .mk x y _ _ _ none => [⟨x * ts + ts / 2, y * ts + ts / 2⟩]
  | .mk x y _ _ _ (some p) => reconstructPath ts p ++ [⟨x * ts + ts / 2, y * ts + ts / 2⟩]

/-- The A* main loop
(`while (openList.length > 0 && iterations < maxIterations)`), as a
recursion on the remaining iteration budget.  Returns the reconstructed
path on success (with the start dropped, `path.slice(1)`), `none` when
the open set or the budget is exhausted, together with the number of
node expansions actually performed. -/
def aStarLoop (ts : ℚ) (map : Grid) (ghost : Bool) (endX endY : ℤ) :
    List PathNode → List PathNode → ℕ → Option (List Vec2) × ℕ
  | _, _, 0 => (none, 0)
  | [], _, _ + 1 => (none, 0)
  | n0 :: rest, closed, fuel + 1 =>
    let opn := n0 :: rest
    let idx := lowestFIdx opn
    let current := opn.getD idx n0
    let opn' := opn.eraseIdx idx
    let closed' := closed ++ [current]
    if current.x = endX ∧ current.y = endY then
      (some ((reconstructPath ts current).drop 1), 1)
    else
      let opn'' := (neighborsOf current).foldl
        (processNeighbor map ghost endX endY current closed') opn'
      let r := aStarLoop ts map ghost endX endY opn'' closed' fuel
      (r.1, r.2 + 1)

/-- `maxIterations = 100` of `findPath`. -/
def maxIterations : ℕ := 100

/-- `EnemyAI.findPath(start, end, map, enemyType)`: short-circuit to
`[end]` when the straight-line distance is below three tile widths,
otherwise run the bounded A*; on failure fall back to `[end]`. -/
def findPath (ts : ℚ) (start stop : Vec2) (map : Grid)
    (enemyType : Option String) : List Vec2 :=
  if sqrtLtB (sqDist start stop) (ts * 3) then [stop]
  else
    let startNode := PathNode.mk ⌊start.x / ts⌋ ⌊start.y / ts⌋ 0 0 0 none
    match (aStarLoop ts map (enemyType = some "ghost") ⌊stop.x / ts⌋ ⌊stop.y / ts⌋
        [startNode] [] maxIterations).1 with
    | some p => p
    | none => [stop]

end EnemyAI

/-! ## The frame orchestrator (`BabylonMode` component): definitions

Its own free function `hasLineOfSight(from, to, map, tileSize)` runs
Bresenham's line algorithm on tile indices and — unlike the AI engine's
check — takes no mover-type argument: the wall test `map[y0]?.[x0] === '#'`
applies to every caller.  The `while (true)` loop advances at least one
of `x0, y0` toward `(x1, y1)` each iteration and runs at most
`|x1-x0| + |y1-y0|` times, so it is embedded as a recursion on that many
remaining steps (plus one for the final cell). -/

namespace BabylonMode

/-- The Bresenham loop body. `dx = |x1-x0| ≥ 0`, `dy = -|y1-y0| ≤ 0`;
each iteration first tests the current cell for a wall, then the
target-reached break, then advances. -/
def bresLoop (map : Grid) (x1 y1 dx dy sx sy : ℤ) : ℤ → ℤ → ℤ → ℕ → Bool
  | _, _, _, 0 => true
  | x0, y0, err, rem + 1 =>
    if tileAt? map x0 y0 = some '#' then false
    else if x0 = x1 ∧ y0 = y1 then true
    else
      let e2 := 2 * err
      let x0' := if dy ≤ e2 then x0 + sx else x0
      let errA := if dy ≤ e2 then err + dy else err
      let y0' := if e2 ≤ dx then y0 + sy else y0
      let errB := if e2 ≤ dx then errA + dx else errA
      bresLoop map x1 y1 dx dy sx sy x0' y0' errB rem

/-- The tile cells the Bresenham loop visits (map-independent companion
of `bresLoop`, by the same recursion). -/
def bresCells (x1 y1 dx dy sx sy : ℤ) : ℤ → ℤ → ℤ → ℕ → List (ℤ × ℤ)
  | _, _, _, 0 => []
  | x0, y0, err, rem + 1 =>
    if x0 = x1 ∧ y0 = y1 then [(x0, y0)]
    else
      let e2 := 2 * err
      let x0' := if dy ≤ e2 then x0 + sx else x0
      let errA := if dy ≤ e2 then err + dy else err
      let y0' := if e2 ≤ dx then y0 + sy else y0
      let errB := if e2 ≤ dx then errA + dx else errA
      (x0, y0) :: bresCells x1 y1 dx dy sx sy x0' y0' errB rem

/-- `hasLineOfSight(from, to, map, tileSize)` of the frame orchestrator:
note the absence of any mover-type / phasing parameter. -/
def hasLineOfSight (fromP toP : Vec2) (map : Grid) (ts : ℚ) : Bool :=
  let x0 := ⌊(fromP.x + ts / 2) / ts⌋
  let y0 := ⌊(fromP.y + ts / 2) / ts⌋
  let x1 := ⌊(toP.x + ts / 2) / ts⌋
  let y1 := ⌊(toP.y + ts / 2) / ts⌋
  let dx := |x1 - x0|
  let sx : ℤ := if x0 < x1 then 1 else -1
  let dy := -|y1 - y0|
  let sy : ℤ := if y0 < y1 then 1 else -1
  bresLoop map x1 y1 dx dy sx sy x0 y0 (dx + dy) ((dx - dy).toNat + 1)

/-- The cells traversed by the orchestrator's line-of-sight between two
pixel positions. -/
def losCells (fromP toP : Vec2) (ts : ℚ) : List (ℤ × ℤ) :=
  let x0 := ⌊(fromP.x + ts / 2) / ts⌋
  let y0 := ⌊(fromP.y + ts / 2) / ts⌋
  let x1 := ⌊(toP.x + ts / 2) / ts⌋
  let y1 := ⌊(toP.y + ts / 2) / ts⌋
  let dx := |x1 - x0|
  let sx : ℤ := if x0 < x1 then 1 else -1
  let dy := -|y1 - y0|
  let sy : ℤ := if y0 < y1 then 1 else -1
  bresCells x1 y1 dx dy sx sy x0 y0 (dx + dy) ((dx - dy).toNat + 1)

/-- The enemy-record fields used by the frame orchestrator's combat and
movement code (`EnemyConfig`); rendering-only fields are omitted. -/
structure EnemyConfig where
  id : String
  type : String
  position : Vec2
  health : ℚ
  maxHealth : ℚ
  speed : ℚ
  damage : ℚ
  sightRange : ℚ
  attackRange : ℚ
deriving DecidableEq, Repr

/-- One record of `lastEnemyPositions` (per enemy id): last sampled
position, the `timeStuck` timestamp, and the cached escape direction. -/
structure StuckRec where
  position : Vec2
  timeStuck : ℤ
  randomDirection : Option Vec2
deriving DecidableEq, Repr

/-- Result of `checkAndHandleStuckEnemy`: the updated tracker record,
the escape vector when the enemy is stuck (`isStuck` is its `isSome`),
and the deadline of the `setTimeout` scheduled to clear the cached
escape direction (1500 ms ahead), when one was scheduled. -/
structure StuckResult where
  tracker : StuckRec
  escapeVector : Option Vec2
  clearAt : Option ℤ
deriving DecidableEq, Repr

/-- `checkAndHandleStuckEnemy(enemy)` for an enemy whose tracker record
is `rec?` and whose current position is `currentPosition`; `now` is
`Date.now()` and `randUnit` the unit vector `(cos θ, sin θ)` of the
random escape angle draw.  Movement beyond `TILE_SIZE * 0.1` resets the
record; being stuck for more than 1000 ms yields the cached escape
direction or creates a new one of magnitude 1.5, backdating `timeStuck`
by 800 ms and scheduling the 1500 ms clear. -/
def checkAndHandleStuckEnemy (ts : ℚ) (rec? : Option StuckRec)
    (currentPosition : Vec2) (now : ℤ) (randUnit : Vec2) : StuckResult :=
  match rec? with
  | none => ⟨⟨currentPosition, now, none⟩, none, none⟩
  | some r =>
    if sqrtGtB (sqDist currentPosition r.position) (ts * (1 / 10)) then
      ⟨⟨currentPosition, now, none⟩, none, none⟩
    else if 1000 < now - r.timeStuck then
      match r.randomDirection with
      | some v => ⟨r, some v, none⟩
      | none =>
        let esc : Vec2 := ⟨randUnit.x * (3 / 2), randUnit.y * (3 / 2)⟩
        ⟨⟨currentPosition, now - 800, some esc⟩, some esc, some (now + 1500)⟩
    else ⟨⟨currentPosition, r.timeStuck, r.randomDirection⟩, none, none⟩

/-- The `setTimeout` callback that clears the cached escape direction
(a no-op when the record was deleted meanwhile). -/
def clearEscapeDirection (rec? : Option StuckRec) : Option StuckRec :=
  rec?.map (fun r => ⟨r.position, r.timeStuck, none⟩)

/-- The pre-normalization movement blend of `updateSingleEnemy`: chase
direction plus repulsion, overridden when the enemy is stuck by the
weighted blend (escape 2.5, chase 0.2, repulsion 0.5) plus the optional
jitter `(Math.random() - 0.5) * 0.8` on each axis (the 30% draw is the
`jitterOn` input; `j1`, `j2` are the two jitter draws). -/
def combinedDirection (dir repulsion : Vec2) (escape : Option Vec2)
    (jitterOn : Bool) (j1 j2 : ℚ) : Vec2 :=
  match escape with
  | none => ⟨dir.x + repulsion.x, dir.y + repulsion.y⟩
  | some esc =>
    let cx := esc.x * (5 / 2) + dir.x * (1 / 5) + repulsion.x * (1 / 2)
    let cy := esc.y * (5 / 2) + dir.y * (1 / 5) + repulsion.y * (1 / 2)
    if jitterOn then ⟨cx + (j1 - 1 / 2) * (4 / 5), cy + (j2 - 1 / 2) * (4 / 5)⟩
    else ⟨cx, cy⟩

/-- The player position adjusted to the center of the 20%-larger hero
sprite: `playerPos + (TILE_SIZE * 1.2) * 0.1` on each axis. -/
def adjustedPlayerPos (ts : ℚ) (playerPos : Vec2) : Vec2 :=
  ⟨playerPos.x + ts * (6 / 5) * (1 / 10), playerPos.y + ts * (6 / 5) * (1 / 10)⟩

/-- Outcome of one enemy's slice of the enemy-attack pass of the game
loop: updated player health, whether the hurt animation and hit-flash
were triggered, the surviving enemy collection, the surviving stuck
tracker entries, and the (possibly updated) `enemyLastAttackTimes`
entry for this enemy. -/
structure AttackOutcome where
  playerHealth : ℚ
  playerHurt : Bool
  enemies : List EnemyConfig
  tracker : List (String × StuckRec)
  lastAttackTime : ℤ
deriving Repr

/-- One enemy's slice of the enemy-attack pass
(`gameState.enemies.forEach(...)`): a two-tile proximity gate, then the
one-tile melee branch (grunt kamikaze for 1 point with removal and
tracker cleanup; otherwise a 0.25-point hit gated on the 1100 ms
cooldown and Bresenham line-of-sight), else the longer-range branch
within `attackRange` where a 10% dice roll deals the enemy's `damage`
stat.  `now` is the frame timestamp, `lastAttack` the stored
`enemyLastAttackTimes` entry (0 when absent), `dice` the `Math.random()`
draw of the ranged branch. -/
def resolveEnemyAttack (ts : ℚ) (map : Grid) (e : EnemyConfig)
    (playerPos : Vec2) (playerHealth : ℚ) (enemies : List EnemyConfig)
    (tracker : List (String × StuckRec)) (now lastAttack : ℤ) (dice : ℚ) :
    AttackOutcome :=
  let adjusted := adjustedPlayerPos ts playerPos
  let d2 := sqDist e.position adjusted
  if sqrtLeB d2 (ts * 2) then
    let canAttack := 1100 ≤ now - lastAttack
    if sqrtLeB d2 (ts * 1) then
      if e.type = "grunt" then
        ⟨max 0 (playerHealth - 1), true,
          enemies.filter (fun e2 => e2.id ≠ e.id),
          tracker.filter (fun pr => pr.1 ≠ e.id), lastAttack⟩
      else if canAttack ∧ hasLineOfSight e.position adjusted map ts = true then
        ⟨max 0 (playerHealth - 1 / 4), true, enemies, tracker, now⟩
      else ⟨playerHealth, false, enemies, tracker, lastAttack⟩
    else if sqrtLeB d2 e.attackRange ∧ canAttack ∧
        hasLineOfSight e.position adjusted map ts = true then
      if dice < 1 / 10 then
        ⟨max 0 (playerHealth - e.damage), true, enemies, tracker, now⟩
      else ⟨playerHealth, false, enemies, tracker, lastAttack⟩
    else ⟨playerHealth, false, enemies, tracker, lastAttack⟩
  else ⟨playerHealth, false, enemies, tracker, lastAttack⟩

/-- Pointwise update of a finite map keyed by a spawner grid cell. -/
def updKey {α : Type} (f : ℤ × ℤ → Option α) (k : ℤ × ℤ) (v : Option α) :
    ℤ × ℤ → Option α :=
  fun k2 => if k2 = k then v else f k2

/-- The shared state touched by the spawner lifecycle code: the tile
grid, `spawnerHealth`, the centralized `spawnerState.current.active`
tracker, and the two per-type last-spawn-time maps.  (The tracker's
`lastUpdated` timestamps are written but never read in the source and
are omitted.) -/
structure SpawnerSys where
  map : Grid
  health : ℤ × ℤ → Option ℚ
  active : ℤ × ℤ → Option Bool
  lastGhostSpawnTimes : ℤ × ℤ → Option ℤ
  lastGruntSpawnTimes : ℤ × ℤ → Option ℤ

/-- `isSpawnerActive(x, y, type)`: consults the centralized tracker,
lazily initializing an absent entry from the current map cell. -/
def isSpawnerActive (s : SpawnerSys) (x y : ℤ) (t : Char) : Bool × SpawnerSys :=
  match s.active (x, y) with
  | none =>
    let isAct := tileAt? s.map x y = some t
    (decide isAct, { s with active := updKey s.active (x, y) (some (decide isAct)) })
  | some b => (b, s)

/-- `markSpawnerDestroyed(x, y)`: force the tracker entry to `false` and
drop both spawn-time entries for the cell. -/
def markSpawnerDestroyed (s : SpawnerSys) (x y : ℤ) : SpawnerSys :=
  { s with
    active := updKey s.active (x, y) (some false),
    lastGhostSpawnTimes := updKey s.lastGhostSpawnTimes (x, y) none,
    lastGruntSpawnTimes := updKey s.lastGruntSpawnTimes (x, y) none }

/-- `newMap[tileY][tileX] = c` on a row-copied grid. -/
def setTile (map : Grid) (x y : ℤ) (c : Char) : Grid :=
  if 0 ≤ x ∧ 0 ≤ y then
    map.set y.toNat ((map.getD y.toNat []).set x.toNat c)
  else map

/-- The player's cardinal facing direction. -/
inductive Dir where
  | north
  | south
  | east
  | west
deriving DecidableEq, Repr

/-- The tile-delta of a facing direction, as in `handlePlayerAttackSpawner`. -/
def dirDelta : Dir → ℤ × ℤ
  | .north => (0, -1)
  | .south => (0, 1)
  | .east => (1, 0)
  | .west => (-1, 0)

/-- The spawner `damageAmount`: 12 under the attack_buff power-up,
otherwise 7. -/
def spawnerDamage (attackBuff : Bool) : ℚ := if attackBuff then 12 else 7

/-- `handlePlayerAttackSpawner()`: damage the spawner on the single tile
in the player's facing direction (7 points, or 12 under the attack
buff); when the health reaches 0, mark the spawner destroyed in the
centralized tracker and rewrite the grid cell to floor `'.'`. -/
def handlePlayerAttackSpawner (ts : ℚ) (s : SpawnerSys) (playerPos : Vec2)
    (dir : Dir) (attackBuff : Bool) : SpawnerSys :=
  let d := dirDelta dir
  let tileX := ⌊(playerPos.x + ts / 2) / ts⌋ + d.1
  let tileY := ⌊(playerPos.y + ts / 2) / ts⌋ + d.2
  match tileAt? s.map tileX tileY with
  | some t =>
    if t = 'B' ∨ t = 'G' then
      let damageAmount := spawnerDamage attackBuff
      match s.health (tileX, tileY) with
      | some h =>
        if 0 < h then
          let h2 := max 0 (h - damageAmount)
          let s1 := { s with health := updKey s.health (tileX, tileY) (some h2) }
          if h2 ≤ 0 then
            let s2 := markSpawnerDestroyed s1 tileX tileY
            { s2 with map := setTile s2.map tileX tileY '.' }
          else s1
        else s
      | none => s
    else s
  | none => s

/-- `spawnGhostFromGenerator(x, y)` at time `now`: re-validate the
centralized tracker, cross-check the map cell still shows `'B'`, enforce
the 2500 ms minimum interval from this spawner's own last spawn
(`lastGhostSpawnTimes[key] || 0`), and record the spawn time on success.
Returns the updated state and whether a ghost was spawned by this call
(the skip branches merely reschedule). -/
def spawnGhostFromGenerator (s : SpawnerSys) (x y : ℤ) (now : ℤ) :
    SpawnerSys × Bool :=
  let a := isSpawnerActive s x y 'B'
  if a.1 = false then (markSpawnerDestroyed a.2 x y, false)
  else if tileAt? a.2.map x y ≠ some 'B' then (markSpawnerDestroyed a.2 x y, false)
  else if now - ((a.2.lastGhostSpawnTimes (x, y)).getD 0) < 2500 then (a.2, false)
  else
    ({ a.2 with lastGhostSpawnTimes := updKey a.2.lastGhostSpawnTimes (x, y) (some now) },
      true)

/-- `spawnGruntFromGenerator(x, y)` at time `now`: as for ghosts but for
code `'G'` and a 4000 ms minimum interval. -/
def spawnGruntFromGenerator (s : SpawnerSys) (x y : ℤ) (now : ℤ) :
    SpawnerSys × Bool :=
  let a := isSpawnerActive s x y 'G'
  if a.1 = false then (markSpawnerDestroyed a.2 x y, false)
  else if tileAt? a.2.map x y ≠ some 'G' then (markSpawnerDestroyed a.2 x y, false)
  else if now - ((a.2.lastGruntSpawnTimes (x, y)).getD 0) < 4000 then (a.2, false)
  else
    ({ a.2 with lastGruntSpawnTimes := updKey a.2.lastGruntSpawnTimes (x, y) (some now) },
      true)

/-- The player health/death fields read and written by the drain timer
and the death check of the game loop. -/
structure PlayerLife where
  health : ℚ
  playerDead : Bool
deriving DecidableEq, Repr

/-- One firing of the 1000 ms health-drain interval: while alive and
above 0, health drops by 1, clamped at 0 (the interval is torn down when
`playerDead`, so a dead player's tick is a no-op). -/
def drainTick (p : PlayerLife) : PlayerLife :=
  if p.playerDead then p
  else if 0 < p.health then { p with health := max 0 (p.health - 1) }
  else p

/-- The game loop's death check: flips `playerDead` when health has
reached 0 and the flag is not yet set; the second component reports
whether the death transition fired. -/
def deathCheck (p : PlayerLife) : PlayerLife × Bool :=
  if p.health ≤ 0 ∧ ¬p.playerDead then ({ p with playerDead := true }, true)
  else (p, false)

/-- A frame-level event affecting the player-life state. -/
inductive LifeOp where
  | drain
  | check
deriving DecidableEq, Repr

/-- Run a sequence of drain ticks and death checks, counting how many
times the death transition fires. -/
def runLifeOps : PlayerLife → List LifeOp → PlayerLife × ℕ
  | p, [] => (p, 0)
  | p, .drain :: ops => runLifeOps (drainTick p) ops
  | p, .check :: ops =>
    let pc := deathCheck p
    let r := runLifeOps pc.1 ops
    (r.1, (if pc.2 then 1 else 0) + r.2)

end BabylonMode

/-! # Theorems -/

lemma sqDist_nonneg (a b : Vec2) : 0 ≤ sqDist a b := by
  have hx : 0 ≤ (a.x - b.x) * (a.x - b.x) := mul_self_nonneg _
  have hy : 0 ≤ (a.y - b.y) * (a.y - b.y) := mul_self_nonneg _
  simpa [sqDist] using add_nonneg hx hy

namespace EnemyAI

lemma losLoop_eq_true_iff (ts : ℚ) (map : Grid) (ghost : Bool)
    (startX startY stepX stepY : ℚ) (i rem : ℕ) :
    losLoop ts map ghost startX startY stepX stepY i rem = true ↔
      ∀ j < rem, samplePasses ts map ghost startX startY stepX stepY (i + j) := by
  induction rem generalizing i with
  | zero => simp [losLoop]
  | succ n ih =>
    rw [losLoop]
    by_cases hb : sampleOutOfBounds map (sampleTileX ts startX stepX i)
        (sampleTileY ts startY stepY i) = true
    · simp only [hb, if_true]
      constructor
      · intro h; cases h
      · intro h
        have := (h 0 (Nat.succ_pos n)).1
        simp only [Nat.add_zero] at this
        rw [this] at hb; cases hb
    · have hb' : sampleOutOfBounds map (sampleTileX ts startX stepX i)
          (sampleTileY ts startY stepY i) = false := by
        cases hEq : sampleOutOfBounds map (sampleTileX ts startX stepX i)
            (sampleTileY ts startY stepY i)
        · rfl
        · exact absurd hEq hb
      simp only [hb', Bool.false_eq_true, if_false]
      by_cases hw : ¬ghost = true ∧ tileAt? map (sampleTileX ts startX stepX i)
          (sampleTileY ts startY stepY i) = some '#'
      · simp only [if_pos hw]
        constructor
        · intro h; cases h
        · intro h
          have h0 := (h 0 (Nat.succ_pos n)).2
          simp only [Nat.add_zero] at h0
          rcases h0 with hg | hnw
          · exact absurd hg hw.1
          · exact absurd hw.2 hnw
      · simp only [if_neg hw]
        rw [ih (i + 1)]
        constructor
        · intro h j hj
          cases j with
          | zero =>
            refine ⟨by simpa using hb', ?_⟩
            by_cases hg : ghost = true
            · exact Or.inl hg
            · right
              intro hcontra
              exact hw ⟨hg, by simpa using hcontra⟩
          | succ k =>
            have hk : k < n := Nat.lt_of_succ_lt_succ hj
            have h2 := h k hk
            have hidx : i + (k + 1) = i + 1 + k := by omega
            rw [hidx]
            exact h2
        · intro h j hj
          have h2 := h (j + 1) (Nat.succ_lt_succ hj)
          have hidx : i + 1 + j = i + (j + 1) := by omega
          rw [hidx]
          exact h2

/-- C4 characterization of `EnemyAI.hasLineOfSight`.  Writing
`steps = max |dx| |dy| / ts`, when `steps ≠ 0` the check succeeds iff
every sampled tile `i = 0 .. ⌊steps⌋` stays inside grid bounds and — for
non-ghost movers only — is not a wall `'#'`; a ghost's result is
characterized by the bounds condition alone, ignoring walls. -/
theorem hasLineOfSight_characterization (ts : ℚ) (start stop : Vec2)
    (map : Grid) (enemyType : Option String)
    (hsteps : max |stop.x - start.x| |stop.y - start.y| / ts ≠ 0) :
    (hasLineOfSight ts start stop map enemyType = true ↔
      ∀ i ≤ (⌊max |stop.x - start.x| |stop.y - start.y| / ts⌋).toNat,
        samplePasses ts map (enemyType = some "ghost") start.x start.y
          ((stop.x - start.x) / (max |stop.x - start.x| |stop.y - start.y| / ts))
          ((stop.y - start.y) / (max |stop.x - start.x| |stop.y - start.y| / ts)) i) ∧
    (enemyType = some "ghost" →
      (hasLineOfSight ts start stop map enemyType = true ↔
        ∀ i ≤ (⌊max |stop.x - start.x| |stop.y - start.y| / ts⌋).toNat,
          sampleOutOfBounds map
            (sampleTileX ts start.x
              ((stop.x - start.x) / (max |stop.x - start.x| |stop.y - start.y| / ts)) i)
            (sampleTileY ts start.y
              ((stop.y - start.y) / (max |stop.x - start.x| |stop.y - start.y| / ts)) i)
            = false)) := by
  constructor
  · rw [hasLineOfSight]
    simp only [if_neg hsteps]
    rw [losLoop_eq_true_iff]
    constructor
    · intro h i hi
      have := h i (Nat.lt_succ_of_le hi)
      simpa using this
    · intro h j hj
      have := h j (Nat.lt_succ_iff.mp hj)
      simpa using this
  · intro hg
    rw [hasLineOfSight]
    simp only [if_neg hsteps]
    rw [losLoop_eq_true_iff]
    constructor
    · intro h i hi
      have := h i (Nat.lt_succ_of_le hi)
      simpa using this.1
    · intro h j hj
      refine ⟨by simpa using h j (Nat.lt_succ_iff.mp hj), Or.inl (by simp [hg])⟩

/-- Witness for the C4 theorem: a concrete 3×3 map with a wall row.  A
ghost's check from `(0,0)` to `(0,64)` passes (walls ignored), while the
same segment fails for a grunt because sample 1 hits the wall. -/
theorem hasLineOfSight_characterization_witness :
    hasLineOfSight 32 ⟨0, 0⟩ ⟨0, 64⟩
        [['.', '.', '.'], ['#', '#', '#'], ['.', '.', '.']] (some "ghost") = true ∧
    hasLineOfSight 32 ⟨0, 0⟩ ⟨0, 64⟩
        [['.', '.', '.'], ['#', '#', '#'], ['.', '.', '.']] (some "grunt") = false := by
  have habs : max |(⟨0, 64⟩ : Vec2).x - (⟨0, 0⟩ : Vec2).x|
      |(⟨0, 64⟩ : Vec2).y - (⟨0, 0⟩ : Vec2).y| / (32 : ℚ) = 2 := by
    show max |(0 : ℚ) - 0| |(64 : ℚ) - 0| / 32 = 2
    rw [show |(0 : ℚ) - 0| = 0 by norm_num, show |(64 : ℚ) - 0| = 64 by norm_num]
    norm_num
  have hsteps : max |(⟨0, 64⟩ : Vec2).x - (⟨0, 0⟩ : Vec2).x|
      |(⟨0, 64⟩ : Vec2).y - (⟨0, 0⟩ : Vec2).y| / (32 : ℚ) ≠ 0 := by
    rw [habs]; norm_num
  have hfloor : (⌊max |(⟨0, 64⟩ : Vec2).x - (⟨0, 0⟩ : Vec2).x|
      |(⟨0, 64⟩ : Vec2).y - (⟨0, 0⟩ : Vec2).y| / (32 : ℚ)⌋).toNat = 2 := by
    rw [habs, show ⌊(2 : ℚ)⌋ = 2 from by norm_num]
    rfl
  have hstepX : ((⟨0, 64⟩ : Vec2).x - (⟨0, 0⟩ : Vec2).x) /
      (max |(⟨0, 64⟩ : Vec2).x - (⟨0, 0⟩ : Vec2).x|
        |(⟨0, 64⟩ : Vec2).y - (⟨0, 0⟩ : Vec2).y| / (32 : ℚ)) = 0 := by
    rw [habs]; norm_num
  have hstepY : ((⟨0, 64⟩ : Vec2).y - (⟨0, 0⟩ : Vec2).y) /
      (max |(⟨0, 64⟩ : Vec2).x - (⟨0, 0⟩ : Vec2).x|
        |(⟨0, 64⟩ : Vec2).y - (⟨0, 0⟩ : Vec2).y| / (32 : ℚ)) = 32 := by
    rw [habs]; norm_num
  have hbounds : ∀ i ≤ (2 : ℕ), sampleOutOfBounds
      [['.', '.', '.'], ['#', '#', '#'], ['.', '.', '.']]
      (sampleTileX 32 (⟨0, 0⟩ : Vec2).x 0 i) (sampleTileY 32 (⟨0, 0⟩ : Vec2).y 32 i)
      = false := by
    intro i hi
    interval_cases i <;>
      · rw [sampleOutOfBounds, sampleTileX, sampleTileY]
        show decide _ = false
        rw [decide_eq_false_iff_not]
        push_neg
        norm_num [gridWidth]
  have h := hasLineOfSight_characterization 32 ⟨0, 0⟩ ⟨0, 64⟩
    [['.', '.', '.'], ['#', '#', '#'], ['.', '.', '.']] (some "ghost") hsteps
  have hg := (h.2 rfl).mpr (by
    rw [hfloor, hstepX, hstepY]
    exact hbounds)
  refine ⟨hg, ?_⟩
  have h' := hasLineOfSight_characterization 32 ⟨0, 0⟩ ⟨0, 64⟩
    [['.', '.', '.'], ['#', '#', '#'], ['.', '.', '.']] (some "grunt") hsteps
  cases hres : hasLineOfSight 32 ⟨0, 0⟩ ⟨0, 64⟩
      [['.', '.', '.'], ['#', '#', '#'], ['.', '.', '.']] (some "grunt")
  · rfl
  · exfalso
    have hall := h'.1.mp hres
    have h1 := hall 1 (by rw [hfloor]; norm_num)
    rw [hstepX, hstepY] at h1
    rcases h1 with ⟨_, hpass⟩
    rcases hpass with hghost | hnw
    · revert hghost; decide
    · apply hnw
      rw [sampleTileX, sampleTileY]
      show tileAt? _ ⌊((0 : ℚ) + 0 * (1 : ℕ)) / 32⌋ ⌊((0 : ℚ) + 32 * (1 : ℕ)) / 32⌋ = _
      rw [show ⌊((0 : ℚ) + 0 * (1 : ℕ)) / 32⌋ = 0 by norm_num,
        show ⌊((0 : ℚ) + 32 * (1 : ℕ)) / 32⌋ = 1 by norm_num]
      rfl

lemma aStarLoop_count_le (ts : ℚ) (map : Grid) (ghost : Bool) (endX endY : ℤ) :
    ∀ (fuel : ℕ) (opn closed : List PathNode),
      (aStarLoop ts map ghost endX endY opn closed fuel).2 ≤ fuel := by
  intro fuel
  induction fuel with
  | zero =>
    intro opn closed
    cases opn <;> simp [aStarLoop]
  | succ n ih =>
    intro opn closed
    cases opn with
    | nil => simp [aStarLoop]
    | cons n0 rest =>
      simp only [aStarLoop]
      split
      · simp
      · exact Nat.succ_le_succ (ih _ _)

/-- C5: the A* search of `findPath` performs at most `maxIterations = 100`
node expansions (the recursion is structurally bounded, so the search
always terminates), and whenever it exhausts the cap or the open set
without reaching the goal (result `none`), `findPath` returns exactly
`[end]`. -/
theorem findPath_bounded_and_fallback (ts : ℚ) (start stop : Vec2)
    (map : Grid) (enemyType : Option String) :
    (aStarLoop ts map (enemyType = some "ghost") ⌊stop.x / ts⌋ ⌊stop.y / ts⌋
        [PathNode.mk ⌊start.x / ts⌋ ⌊start.y / ts⌋ 0 0 0 none] [] maxIterations).2
      ≤ 100 ∧
    ((aStarLoop ts map (enemyType = some "ghost") ⌊stop.x / ts⌋ ⌊stop.y / ts⌋
        [PathNode.mk ⌊start.x / ts⌋ ⌊start.y / ts⌋ 0 0 0 none] [] maxIterations).1
        = none →
      findPath ts start stop map enemyType = [stop]) := by
  constructor
  · exact aStarLoop_count_le ts map _ _ _ maxIterations _ _
  · intro hnone
    rw [findPath]
    cases hb : sqrtLtB (sqDist start stop) (ts * 3)
    · simp only [Bool.false_eq_true, if_false]
      rw [hnone]
    · simp

/-- Witness for the C5 theorem: on the 1×1 all-wall map with a far-away
goal, the search exhausts the open set, and `findPath` indeed returns
`[end]`; the expansion count is within the cap. -/
theorem findPath_bounded_and_fallback_witness :
    (aStarLoop 32 [['#']] ((none : Option String) = some "ghost") 6 0
        [PathNode.mk 0 0 0 0 0 none] [] maxIterations).2 ≤ 100 ∧
    findPath 32 ⟨0, 0⟩ ⟨200, 0⟩ [['#']] none = [⟨200, 0⟩] := by
  have h6 : ⌊(200 : ℚ) / 32⌋ = 6 := by norm_num
  have h0 : ⌊(0 : ℚ) / 32⌋ = 0 := by norm_num
  have h := findPath_bounded_and_fallback 32 ⟨0, 0⟩ ⟨200, 0⟩ [['#']] none
  rw [h6, h0] at h
  exact ⟨h.1, h.2 (by decide)⟩

/-- C6: when the straight-line distance between `start` and `end` is
strictly below three tile widths, `findPath` returns exactly `[end]`
(the A* search is short-circuited). -/
theorem findPath_short_circuit (ts : ℚ) (start stop : Vec2) (map : Grid)
    (enemyType : Option String) (hts : 0 < ts)
    (hdist : sqDist start stop < (ts * 3) ^ 2) :
    findPath ts start stop map enemyType = [stop] := by
  have hb : sqrtLtB (sqDist start stop) (ts * 3) = true := by
    rw [sqrtLtB, decide_eq_true_eq]
    exact ⟨by positivity, hdist⟩
  rw [findPath, hb]
  simp

/-- Witness for the C6 theorem at a concrete one-tile offset. -/
theorem findPath_short_circuit_witness :
    (0 : ℚ) < 32 ∧ sqDist ⟨0, 0⟩ ⟨32, 0⟩ < ((32 : ℚ) * 3) ^ 2 ∧
    findPath 32 ⟨0, 0⟩ ⟨32, 0⟩ [['.']] none = [⟨32, 0⟩] := by
  refine ⟨by norm_num, by norm_num [sqDist], ?_⟩
  exact findPath_short_circuit 32 ⟨0, 0⟩ ⟨32, 0⟩ [['.']] none (by norm_num)
    (by norm_num [sqDist])

end EnemyAI

namespace BabylonMode

lemma bresLoop_eq_true_iff (map : Grid) (x1 y1 dx dy sx sy : ℤ)
    (x0 y0 err : ℤ) (rem : ℕ) :
    bresLoop map x1 y1 dx dy sx sy x0 y0 err rem = true ↔
      ∀ c ∈ bresCells x1 y1 dx dy sx sy x0 y0 err rem,
        tileAt? map c.1 c.2 ≠ some '#' := by
  induction rem generalizing x0 y0 err with
  | zero => simp [bresLoop, bresCells]
  | succ n ih =>
    simp only [bresLoop, bresCells]
    by_cases htgt : x0 = x1 ∧ y0 = y1
    · obtain ⟨hx, hy⟩ := htgt
      subst hx; subst hy
      by_cases hw : tileAt? map x0 y0 = some '#'
      · simp [hw]
      · simp [hw]
    · by_cases hw : tileAt? map x0 y0 = some '#'
      · simp only [if_pos hw, if_neg htgt]
        constructor
        · intro h; cases h
        · intro h
          exact absurd hw (h (x0, y0) (List.mem_cons_self _ _))
      · simp only [if_neg hw, if_neg htgt]
        rw [ih]
        constructor
        · intro h c hc
          rcases List.mem_cons.mp hc with hceq | hc'
          · subst hceq; exact hw
          · exact h c hc'
        · intro h c hc
          exact h c (List.mem_cons_of_mem _ hc)

lemma stepCoord_eq_iff (X1 xs a : ℤ) (h0 : 0 ≤ a) (hle : a ≤ |X1 - xs|) :
    xs + (if xs < X1 then 1 else -1) * a = X1 ↔ a = |X1 - xs| := by
  rcases abs_cases (X1 - xs) with ⟨habs, hsign⟩ | ⟨habs, hsign⟩ <;>
    rw [habs] at hle ⊢ <;> split_ifs with hxs <;> omega

/-- Fuel sufficiency for the Bresenham embedding: from a state that has
taken `a` x-steps and `b` y-steps toward the target, any fuel of at
least the remaining taxicab distance plus one yields the same result —
so the `(dx - dy).toNat + 1` budget of `hasLineOfSight` computes the
value of the source's unbounded `while (true)` loop. -/
lemma bresLoop_fuel_stable (map : Grid) (X1 Y1 xs ys : ℤ) :
    ∀ (n m : ℕ) (a b : ℤ), 0 ≤ a → 0 ≤ b → a ≤ |X1 - xs| → b ≤ |Y1 - ys| →
      |X1 - xs| - a + (|Y1 - ys| - b) ≤ (n : ℤ) → n ≤ m →
      bresLoop map X1 Y1 |X1 - xs| (-|Y1 - ys|) (if xs < X1 then 1 else -1)
        (if ys < Y1 then 1 else -1)
        (xs + (if xs < X1 then 1 else -1) * a)
        (ys + (if ys < Y1 then 1 else -1) * b)
        (|X1 - xs| - |Y1 - ys| + b * |X1 - xs| - a * |Y1 - ys|) (n + 1)
      = bresLoop map X1 Y1 |X1 - xs| (-|Y1 - ys|) (if xs < X1 then 1 else -1)
        (if ys < Y1 then 1 else -1)
        (xs + (if xs < X1 then 1 else -1) * a)
        (ys + (if ys < Y1 then 1 else -1) * b)
        (|X1 - xs| - |Y1 - ys| + b * |X1 - xs| - a * |Y1 - ys|) (m + 1) := by
  have hD : 0 ≤ |X1 - xs| := abs_nonneg _
  have hE : 0 ≤ |Y1 - ys| := abs_nonneg _
  intro n
  induction n with
  | zero =>
    intro m a b ha0 hb0 haD hbE hmeas _
    have haEq : a = |X1 - xs| := by omega
    have hbEq : b = |Y1 - ys| := by omega
    have hx : xs + (if xs < X1 then 1 else -1) * a = X1 :=
      (stepCoord_eq_iff X1 xs a ha0 haD).mpr haEq
    have hy : ys + (if ys < Y1 then 1 else -1) * b = Y1 :=
      (stepCoord_eq_iff Y1 ys b hb0 hbE).mpr hbEq
    simp only [bresLoop]
    by_cases hw : tileAt? map (xs + (if xs < X1 then 1 else -1) * a)
        (ys + (if ys < Y1 then 1 else -1) * b) = some '#'
    · rw [if_pos hw, if_pos hw]
    · rw [if_neg hw, if_neg hw, if_pos ⟨hx, hy⟩, if_pos ⟨hx, hy⟩]
  | succ n ih =>
    intro m a b ha0 hb0 haD hbE hmeas hnm
    obtain ⟨m', rfl⟩ : ∃ m', m = m' + 1 := ⟨m - 1, by omega⟩
    have hm' : n ≤ m' := by omega
    simp only [bresLoop]
    by_cases hw : tileAt? map (xs + (if xs < X1 then 1 else -1) * a)
        (ys + (if ys < Y1 then 1 else -1) * b) = some '#'
    · rw [if_pos hw, if_pos hw]
    · by_cases htgt : xs + (if xs < X1 then 1 else -1) * a = X1 ∧
          ys + (if ys < Y1 then 1 else -1) * b = Y1
      · rw [if_neg hw, if_neg hw, if_pos htgt, if_pos htgt]
      · rw [if_neg hw, if_neg hw, if_neg htgt, if_neg htgt]
        have htgt' : ¬ (a = |X1 - xs| ∧ b = |Y1 - ys|) := by
          intro ⟨haEq, hbEq⟩
          exact htgt ⟨(stepCoord_eq_iff X1 xs a ha0 haD).mpr haEq,
            (stepCoord_eq_iff Y1 ys b hb0 hbE).mpr hbEq⟩
        set e2 := 2 * (|X1 - xs| - |Y1 - ys| + b * |X1 - xs| - a * |Y1 - ys|)
          with he2
        have hstepA : -|Y1 - ys| ≤ e2 → a < |X1 - xs| := by
          intro hX
          by_contra hge
          have haEq : a = |X1 - xs| := by omega
          have hbLt : b < |Y1 - ys| := by
            rcases lt_or_eq_of_le hbE with hlt | hEq
            · exact hlt
            · exact absurd ⟨haEq, hEq⟩ htgt'
          have hprod : |X1 - xs| * (1 + b - |Y1 - ys|) ≤ 0 := by
            have h1 : 1 + b - |Y1 - ys| ≤ 0 := by omega
            nlinarith
          have he2eq : e2 = 2 * (|X1 - xs| * (1 + b - |Y1 - ys|)) - 2 * |Y1 - ys| := by
            rw [he2, haEq]
            ring
          have hEpos : 0 < |Y1 - ys| := by omega
          have : e2 < -|Y1 - ys| := by
            rw [he2eq]
            linarith
          linarith
        have hstepB : e2 ≤ |X1 - xs| → b < |Y1 - ys| := by
          intro hY
          by_contra hge
          have hbEq : b = |Y1 - ys| := by omega
          have haLt : a < |X1 - xs| := by
            rcases lt_or_eq_of_le haD with hlt | hEq
            · exact hlt
            · exact absurd ⟨hEq, hbEq⟩ htgt'
          have hprod : 0 ≤ |Y1 - ys| * (|X1 - xs| - a - 1) := by
            have h1 : 0 ≤ |X1 - xs| - a - 1 := by omega
            nlinarith
          have he2eq : e2 = 2 * (|Y1 - ys| * (|X1 - xs| - a - 1)) + 2 * |X1 - xs| := by
            rw [he2, hbEq]
            ring
          have hDpos : 0 < |X1 - xs| := by omega
          have : |X1 - xs| < e2 := by
            rw [he2eq]
            linarith
          linarith
        by_cases hX : -|Y1 - ys| ≤ e2 <;> by_cases hY : e2 ≤ |X1 - xs|
        · simp only [if_pos hX, if_pos hY]
          have haLt := hstepA hX
          have hbLt := hstepB hY
          have hxarg : xs + (if xs < X1 then 1 else -1) * a +
              (if xs < X1 then 1 else -1) = xs + (if xs < X1 then 1 else -1) * (a + 1) := by
            ring
          have hyarg : ys + (if ys < Y1 then 1 else -1) * b +
              (if ys < Y1 then 1 else -1) = ys + (if ys < Y1 then 1 else -1) * (b + 1) := by
            ring
          have herr : |X1 - xs| - |Y1 - ys| + b * |X1 - xs| - a * |Y1 - ys|
              + -|Y1 - ys| + |X1 - xs|
              = |X1 - xs| - |Y1 - ys| + (b + 1) * |X1 - xs| - (a + 1) * |Y1 - ys| := by
            ring
          rw [hxarg, hyarg, herr]
          exact ih m' (a + 1) (b + 1) (by omega) (by omega) (by omega) (by omega)
            (by push_cast; push_cast at hmeas; omega) hm'
        · simp only [if_pos hX, if_neg hY]
          have haLt := hstepA hX
          have hxarg : xs + (if xs < X1 then 1 else -1) * a +
              (if xs < X1 then 1 else -1) = xs + (if xs < X1 then 1 else -1) * (a + 1) := by
            ring
          have herr : |X1 - xs| - |Y1 - ys| + b * |X1 - xs| - a * |Y1 - ys|
              + -|Y1 - ys|
              = |X1 - xs| - |Y1 - ys| + b * |X1 - xs| - (a + 1) * |Y1 - ys| := by
            ring
          rw [hxarg, herr]
          exact ih m' (a + 1) b (by omega) hb0 (by omega) hbE
            (by push_cast; push_cast at hmeas; omega) hm'
        · simp only [if_neg hX, if_pos hY]
          have hbLt := hstepB hY
          have hyarg : ys + (if ys < Y1 then 1 else -1) * b +
              (if ys < Y1 then 1 else -1) = ys + (if ys < Y1 then 1 else -1) * (b + 1) := by
            ring
          have herr : |X1 - xs| - |Y1 - ys| + b * |X1 - xs| - a * |Y1 - ys|
              + |X1 - xs|
              = |X1 - xs| - |Y1 - ys| + (b + 1) * |X1 - xs| - a * |Y1 - ys| := by
            ring
          rw [hyarg, herr]
          exact ih m' a (b + 1) ha0 (by omega) haD (by omega)
            (by push_cast; push_cast at hmeas; omega) hm'
        · exfalso
          push_neg at hX hY
          linarith
  termination_by n => n

/-- Corollary of fuel sufficiency at the top-level call: the result of
`hasLineOfSight` is unchanged under any fuel at least its own budget. -/
lemma hasLineOfSight_fuel_irrelevant (fromP toP : Vec2) (map : Grid) (ts : ℚ)
    (m : ℕ)
    (hm : ((|⌊(toP.x + ts / 2) / ts⌋ - ⌊(fromP.x + ts / 2) / ts⌋| +
      |⌊(toP.y + ts / 2) / ts⌋ - ⌊(fromP.y + ts / 2) / ts⌋|)).toNat ≤ m) :
    hasLineOfSight fromP toP map ts =
      bresLoop map ⌊(toP.x + ts / 2) / ts⌋ ⌊(toP.y + ts / 2) / ts⌋
        |⌊(toP.x + ts / 2) / ts⌋ - ⌊(fromP.x + ts / 2) / ts⌋|
        (-|⌊(toP.y + ts / 2) / ts⌋ - ⌊(fromP.y + ts / 2) / ts⌋|)
        (if ⌊(fromP.x + ts / 2) / ts⌋ < ⌊(toP.x + ts / 2) / ts⌋ then 1 else -1)
        (if ⌊(fromP.y + ts / 2) / ts⌋ < ⌊(toP.y + ts / 2) / ts⌋ then 1 else -1)
        ⌊(fromP.x + ts / 2) / ts⌋ ⌊(fromP.y + ts / 2) / ts⌋
        (|⌊(toP.x + ts / 2) / ts⌋ - ⌊(fromP.x + ts / 2) / ts⌋| +
          -|⌊(toP.y + ts / 2) / ts⌋ - ⌊(fromP.y + ts / 2) / ts⌋|) (m + 1) := by
  have h0 := bresLoop_fuel_stable map ⌊(toP.x + ts / 2) / ts⌋ ⌊(toP.y + ts / 2) / ts⌋
    ⌊(fromP.x + ts / 2) / ts⌋ ⌊(fromP.y + ts / 2) / ts⌋
    ((|⌊(toP.x + ts / 2) / ts⌋ - ⌊(fromP.x + ts / 2) / ts⌋| +
      |⌊(toP.y + ts / 2) / ts⌋ - ⌊(fromP.y + ts / 2) / ts⌋|)).toNat m 0 0
    le_rfl le_rfl (abs_nonneg _) (abs_nonneg _)
    (by
      push_cast
      rw [Int.toNat_of_nonneg (by positivity)]
      ring_nf
      omega)
    hm
  rw [hasLineOfSight]
  have habsub : |⌊(toP.x + ts / 2) / ts⌋ - ⌊(fromP.x + ts / 2) / ts⌋| -
      -|⌊(toP.y + ts / 2) / ts⌋ - ⌊(fromP.y + ts / 2) / ts⌋|
      = |⌊(toP.x + ts / 2) / ts⌋ - ⌊(fromP.x + ts / 2) / ts⌋| +
        |⌊(toP.y + ts / 2) / ts⌋ - ⌊(fromP.y + ts / 2) / ts⌋| := by
    ring
  rw [habsub]
  simpa using h0

/-- The AI engine's check passes for a ghost across the wall row of the
concrete 3×3 map (direct evaluation, used for the contrast below). -/
lemma aiGhostLOS_concrete :
    EnemyAI.hasLineOfSight 32 ⟨0, 0⟩ ⟨0, 64⟩
      [['.', '.', '.'], ['#', '#', '#'], ['.', '.', '.']] (some "ghost") = true := by
  norm_num [EnemyAI.hasLineOfSight, EnemyAI.losLoop, EnemyAI.sampleTileX,
    EnemyAI.sampleTileY, EnemyAI.sampleOutOfBounds, gridWidth, tileAt?]

/-- The orchestrator's Bresenham check fails on the same segment over
the same map (direct evaluation, used for the contrast below). -/
lemma bresLOS_concrete :
    hasLineOfSight ⟨0, 0⟩ ⟨0, 64⟩
      [['.', '.', '.'], ['#', '#', '#'], ['.', '.', '.']] 32 = false := by
  have h0 : ⌊((0 : ℚ) + 32 / 2) / 32⌋ = 0 := by norm_num
  have h2 : ⌊((64 : ℚ) + 32 / 2) / 32⌋ = 2 := by norm_num
  simp only [hasLineOfSight, h0, h2]
  decide

/-- C10: the frame orchestrator's own Bresenham line-of-sight blocks on
every wall tile `'#'` along the traversed cells for every caller — it
has no mover-type parameter and no phasing exception.  Concretely, on
the 3×3 map with a wall row, the AI engine's check passes for a ghost
while the orchestrator's check fails on the same segment. -/
theorem bresenham_los_blocks_walls_for_all_movers :
    (∀ (fromP toP : Vec2) (map : Grid) (ts : ℚ),
      hasLineOfSight fromP toP map ts = true ↔
        ∀ c ∈ losCells fromP toP ts, tileAt? map c.1 c.2 ≠ some '#') ∧
    (EnemyAI.hasLineOfSight 32 ⟨0, 0⟩ ⟨0, 64⟩
        [['.', '.', '.'], ['#', '#', '#'], ['.', '.', '.']] (some "ghost") = true ∧
      hasLineOfSight ⟨0, 0⟩ ⟨0, 64⟩
        [['.', '.', '.'], ['#', '#', '#'], ['.', '.', '.']] 32 = false) := by
  refine ⟨fun fromP toP map ts => ?_, aiGhostLOS_concrete, bresLOS_concrete⟩
  rw [hasLineOfSight, losCells]
  exact bresLoop_eq_true_iff _ _ _ _ _ _ _ _ _ _ _

lemma isSpawnerActive_map (s : SpawnerSys) (x y : ℤ) (t : Char) :
    (isSpawnerActive s x y t).2.map = s.map := by
  rw [isSpawnerActive]
  cases s.active (x, y) <;> rfl

lemma isSpawnerActive_lastGhost (s : SpawnerSys) (x y : ℤ) (t : Char) :
    (isSpawnerActive s x y t).2.lastGhostSpawnTimes = s.lastGhostSpawnTimes := by
  rw [isSpawnerActive]
  cases s.active (x, y) <;> rfl

lemma isSpawnerActive_lastGrunt (s : SpawnerSys) (x y : ℤ) (t : Char) :
    (isSpawnerActive s x y t).2.lastGruntSpawnTimes = s.lastGruntSpawnTimes := by
  rw [isSpawnerActive]
  cases s.active (x, y) <;> rfl

lemma isSpawnerActive_of_false (s : SpawnerSys) (x y : ℤ) (t : Char)
    (h : s.active (x, y) = some false) : isSpawnerActive s x y t = (false, s) := by
  rw [isSpawnerActive, h]

lemma tileAt?_setTile (map : Grid) (x y : ℤ) (c t : Char)
    (h : tileAt? map x y = some t) : tileAt? (setTile map x y c) x y = some c := by
  rw [tileAt?] at h
  by_cases hb : 0 ≤ x ∧ 0 ≤ y
  · rw [if_pos hb] at h
    obtain ⟨row, hrow, hcell⟩ := Option.bind_eq_some.mp h
    have hylt : y.toNat < map.length := by
      by_contra hge
      rw [List.get?_eq_none.mpr (not_lt.mp hge)] at hrow
      cases hrow
    have hxlt : x.toNat < row.length := by
      by_contra hge
      rw [List.get?_eq_none.mpr (not_lt.mp hge)] at hcell
      cases hcell
    have hgetD : map.getD y.toNat [] = row := by
      rw [List.getD_eq_get?, hrow]
      rfl
    rw [tileAt?, if_pos hb, setTile, if_pos hb, hgetD,
      List.get?_set_eq_of_lt _ (by simpa using hylt)]
    show (row.set x.toNat c).get? x.toNat = some c
    exact List.get?_set_eq_of_lt _ (by simpa using hxlt)
  · rw [if_neg hb] at h
    cases h

lemma spawnGhost_success_elim (s : SpawnerSys) (x y now : ℤ) (s2 : SpawnerSys)
    (h : spawnGhostFromGenerator s x y now = (s2, true)) :
    (isSpawnerActive s x y 'B').1 = true ∧ tileAt? s.map x y = some 'B' ∧
    (∀ t1, s.lastGhostSpawnTimes (x, y) = some t1 → 2500 ≤ now - t1) ∧
    s2.lastGhostSpawnTimes (x, y) = some now := by
  simp only [spawnGhostFromGenerator] at h
  split_ifs at h with h1 h2 h3
  · have := congrArg Prod.snd h
    simp at this
  · have := congrArg Prod.snd h
    simp at this
  · have := congrArg Prod.snd h
    simp at this
  · injection h with hs2 htriv
    refine ⟨by simpa using h1, ?_, ?_, ?_⟩
    · rw [← isSpawnerActive_map s x y 'B']
      simpa using h2
    · intro t1 ht1
      rw [isSpawnerActive_lastGhost, ht1] at h3
      simpa using not_lt.mp h3
    · rw [← hs2]
      simp [updKey, isSpawnerActive_lastGhost]

lemma spawnGrunt_success_elim (s : SpawnerSys) (x y now : ℤ) (s2 : SpawnerSys)
    (h : spawnGruntFromGenerator s x y now = (s2, true)) :
    (isSpawnerActive s x y 'G').1 = true ∧ tileAt? s.map x y = some 'G' ∧
    (∀ t1, s.lastGruntSpawnTimes (x, y) = some t1 → 4000 ≤ now - t1) ∧
    s2.lastGruntSpawnTimes (x, y) = some now := by
  simp only [spawnGruntFromGenerator] at h
  split_ifs at h with h1 h2 h3
  · have := congrArg Prod.snd h
    simp at this
  · have := congrArg Prod.snd h
    simp at this
  · have := congrArg Prod.snd h
    simp at this
  · injection h with hs2 htriv
    refine ⟨by simpa using h1, ?_, ?_, ?_⟩
    · rw [← isSpawnerActive_map s x y 'G']
      simpa using h2
    · intro t1 ht1
      rw [isSpawnerActive_lastGrunt, ht1] at h3
      simpa using not_lt.mp h3
    · rw [← hs2]
      simp [updKey, isSpawnerActive_lastGrunt]

lemma handleAttack_result (ts : ℚ) (s : SpawnerSys) (playerPos : Vec2)
    (dir : Dir) (buff : Bool) :
    handlePlayerAttackSpawner ts s playerPos dir buff = s ∨
    ∃ kk t h, tileAt? s.map kk.1 kk.2 = some t ∧ (t = 'B' ∨ t = 'G') ∧
      s.health kk = some h ∧ 0 < h ∧
      ((¬ max 0 (h - spawnerDamage buff) ≤ 0 ∧
        handlePlayerAttackSpawner ts s playerPos dir buff =
          { s with health := updKey s.health kk (some (max 0 (h - spawnerDamage buff))) }) ∨
       (max 0 (h - spawnerDamage buff) ≤ 0 ∧
        handlePlayerAttackSpawner ts s playerPos dir buff =
          { map := setTile s.map kk.1 kk.2 '.',
            health := updKey s.health kk (some (max 0 (h - spawnerDamage buff))),
            active := updKey s.active kk (some false),
            lastGhostSpawnTimes := updKey s.lastGhostSpawnTimes kk none,
            lastGruntSpawnTimes := updKey s.lastGruntSpawnTimes kk none })) := by
  simp only [handlePlayerAttackSpawner]
  split
  · next t heq =>
    split_ifs with hbg
    · split
      · next h heq2 =>
        split_ifs with hpos hdead
        · refine Or.inr ⟨_, t, h, heq, hbg, heq2, hpos, Or.inr ⟨hdead, ?_⟩⟩
          simp [markSpawnerDestroyed]
        · exact Or.inr ⟨_, t, h, heq, hbg, heq2, hpos, Or.inl ⟨hdead, rfl⟩⟩
        · exact Or.inl rfl
      · exact Or.inl rfl
    · exact Or.inl rfl
  · exact Or.inl rfl

lemma orcLOS_eval :
    hasLineOfSight ⟨0, 0⟩ (⟨96 / 25, 96 / 25⟩ : Vec2)
      [['.', '.'], ['.', '.']] 32 = true := by
  have hf0 : ⌊((0 : ℚ) + 32 / 2) / 32⌋ = 0 := by norm_num
  have hf1 : ⌊((96 / 25 : ℚ) + 32 / 2) / 32⌋ = 0 := by norm_num
  simp only [hasLineOfSight, hf0, hf1]
  decide

lemma adjustedOrc_eval : adjustedPlayerPos 32 (⟨0, 0⟩ : Vec2) = ⟨96 / 25, 96 / 25⟩ := by
  rw [adjustedPlayerPos]
  norm_num [Vec2.mk.injEq]

lemma resolveOrc_eval :
    resolveEnemyAttack 32 [['.', '.'], ['.', '.']]
      ⟨"orc1", "orc", ⟨0, 0⟩, 5, 5, 1, 2, 350, 3⟩ ⟨0, 0⟩ 100 [] [] 2000 0 1 =
      ⟨399 / 4, true, [], [], 2000⟩ := by
  have hd2 : sqDist ⟨0, 0⟩ (⟨96 / 25, 96 / 25⟩ : Vec2) = 18432 / 625 := by
    rw [sqDist]
    norm_num
  simp only [resolveEnemyAttack, adjustedOrc_eval]
  rw [hd2]
  rw [show sqrtLeB (18432 / 625) (32 * 2) = true from by
      rw [sqrtLeB, decide_eq_true_eq]; norm_num,
    show sqrtLeB (18432 / 625) (32 * 1) = true from by
      rw [sqrtLeB, decide_eq_true_eq]; norm_num]
  simp only [eq_self_iff_true, if_true]
  rw [if_neg (by decide : ¬ ("orc" : String) = "grunt")]
  rw [if_pos ⟨by norm_num, orcLOS_eval⟩]
  rw [show (0 : ℚ) ⊔ (100 - 1 / 4) = 399 / 4 from by rw [max_def]; norm_num]

/-- C1 counterexample: a non-grunt enemy ("orc", `damage` 2) in melee
range of the player with line-of-sight and an elapsed cooldown: the
resolver leaves the player at 99.75 health (a fixed 0.25-point hit),
not at 98 as the claim's "reduces health by the enemy's damage stat"
would require. -/
theorem nongrunt_melee_damage_counterexample :
    (resolveEnemyAttack 32 [['.', '.'], ['.', '.']]
      ⟨"orc1", "orc", ⟨0, 0⟩, 5, 5, 1, 2, 350, 3⟩ ⟨0, 0⟩ 100 [] [] 2000 0 1).playerHealth
      = 399 / 4 ∧
    (399 / 4 : ℚ) ≠ 100 -
      (⟨"orc1", "orc", ⟨0, 0⟩, 5, 5, 1, 2, 350, 3⟩ : EnemyConfig).damage := by
  rw [resolveOrc_eval]
  exact ⟨rfl, by norm_num⟩

/-- C1 (amended): for every non-grunt enemy within melee range (one
tile of the adjusted player position) with line-of-sight and an elapsed
1100 ms per-enemy cooldown, the combat resolver reduces player health
by a fixed 0.25 points (clamped at 0) — not by the enemy's `damage`
stat — and stamps the cooldown; the enemy's `damage` stat applies only
in the longer-range damage-dice branch (a 10% roll within `attackRange`
beyond melee range). -/
theorem nongrunt_melee_quarter_damage (ts : ℚ) (map : Grid) (e : EnemyConfig)
    (playerPos : Vec2) (ph : ℚ) (enemies : List EnemyConfig)
    (tracker : List (String × StuckRec)) (now lastAttack : ℤ) (dice : ℚ)
    (hts : 0 < ts) :
    (e.type ≠ "grunt" →
      sqDist e.position (adjustedPlayerPos ts playerPos) ≤ (ts * 1) ^ 2 →
      1100 ≤ now - lastAttack →
      hasLineOfSight e.position (adjustedPlayerPos ts playerPos) map ts = true →
      (resolveEnemyAttack ts map e playerPos ph enemies tracker now lastAttack
        dice).playerHealth = max 0 (ph - 1 / 4) ∧
      (resolveEnemyAttack ts map e playerPos ph enemies tracker now lastAttack
        dice).lastAttackTime = now) ∧
    (¬ sqDist e.position (adjustedPlayerPos ts playerPos) ≤ (ts * 1) ^ 2 →
      sqDist e.position (adjustedPlayerPos ts playerPos) ≤ (ts * 2) ^ 2 →
      sqrtLeB (sqDist e.position (adjustedPlayerPos ts playerPos)) e.attackRange
        = true →
      1100 ≤ now - lastAttack →
      hasLineOfSight e.position (adjustedPlayerPos ts playerPos) map ts = true →
      dice < 1 / 10 →
      (resolveEnemyAttack ts map e playerPos ph enemies tracker now lastAttack
        dice).playerHealth = max 0 (ph - e.damage)) := by
  constructor
  · intro hty hmelee hcool hlos
    have houter : sqrtLeB (sqDist e.position (adjustedPlayerPos ts playerPos))
        (ts * 2) = true := by
      rw [sqrtLeB, decide_eq_true_eq]
      exact ⟨by positivity, by nlinarith⟩
    have hmelB : sqrtLeB (sqDist e.position (adjustedPlayerPos ts playerPos))
        (ts * 1) = true := by
      rw [sqrtLeB, decide_eq_true_eq]
      exact ⟨by positivity, hmelee⟩
    simp only [resolveEnemyAttack, houter, hmelB, if_true]
    rw [if_neg hty, if_pos ⟨hcool, hlos⟩]
    exact ⟨rfl, rfl⟩
  · intro hfar houter2 hrange hcool hlos hdice
    have houter : sqrtLeB (sqDist e.position (adjustedPlayerPos ts playerPos))
        (ts * 2) = true := by
      rw [sqrtLeB, decide_eq_true_eq]
      exact ⟨by positivity, houter2⟩
    have hmelF : sqrtLeB (sqDist e.position (adjustedPlayerPos ts playerPos))
        (ts * 1) = false := by
      rw [sqrtLeB, decide_eq_false_iff_not]
      intro hcon
      exact hfar hcon.2
    simp only [resolveEnemyAttack, houter, hmelF, if_true, Bool.false_eq_true,
      if_false]
    rw [if_pos ⟨hrange, hcool, hlos⟩, if_pos hdice]

/-- Witness for the amended C1 theorem at the concrete "orc" instance:
the melee branch yields `max 0 (100 - 1/4)`. -/
theorem nongrunt_melee_quarter_damage_witness :
    (resolveEnemyAttack 32 [['.', '.'], ['.', '.']]
      ⟨"orc1", "orc", ⟨0, 0⟩, 5, 5, 1, 2, 350, 3⟩ ⟨0, 0⟩ 100 [] [] 2000 0 1).playerHealth
      = max 0 (100 - 1 / 4) := by
  have h := (nongrunt_melee_quarter_damage 32 [['.', '.'], ['.', '.']]
    ⟨"orc1", "orc", ⟨0, 0⟩, 5, 5, 1, 2, 350, 3⟩ ⟨0, 0⟩ 100 [] [] 2000 0 1
    (by norm_num)).1
  refine (h (by decide) ?_ (by norm_num) ?_).1
  · rw [adjustedOrc_eval]
    rw [show (⟨"orc1", "orc", ⟨0, 0⟩, 5, 5, 1, 2, 350, 3⟩ : EnemyConfig).position
      = ⟨0, 0⟩ from rfl]
    rw [show sqDist ⟨0, 0⟩ (⟨96 / 25, 96 / 25⟩ : Vec2) = 18432 / 625 from by
      rw [sqDist]; norm_num]
    norm_num
  · rw [adjustedOrc_eval]
    rw [show (⟨"orc1", "orc", ⟨0, 0⟩, 5, 5, 1, 2, 350, 3⟩ : EnemyConfig).position
      = ⟨0, 0⟩ from rfl]
    exact orcLOS_eval

/-- C7: a grunt within one tile of the (adjusted) player position deals
exactly 1 point (clamped at 0, regardless of its `damage` stat, with no
cooldown or line-of-sight requirement), is removed from the enemy
collection in the same resolution, and its stuck-tracker entry is
deleted. -/
theorem grunt_contact_kamikaze (ts : ℚ) (map : Grid) (e : EnemyConfig)
    (playerPos : Vec2) (ph : ℚ) (enemies : List EnemyConfig)
    (tracker : List (String × StuckRec)) (now lastAttack : ℤ) (dice : ℚ)
    (hty : e.type = "grunt") (hts : 0 < ts)
    (hmelee : sqDist e.position (adjustedPlayerPos ts playerPos) ≤ (ts * 1) ^ 2) :
    (resolveEnemyAttack ts map e playerPos ph enemies tracker now lastAttack
      dice).playerHealth = max 0 (ph - 1) ∧
    (resolveEnemyAttack ts map e playerPos ph enemies tracker now lastAttack
      dice).enemies = enemies.filter (fun e2 => e2.id ≠ e.id) ∧
    (resolveEnemyAttack ts map e playerPos ph enemies tracker now lastAttack
      dice).tracker = tracker.filter (fun pr => pr.1 ≠ e.id) ∧
    (∀ e2 ∈ (resolveEnemyAttack ts map e playerPos ph enemies tracker now
      lastAttack dice).enemies, e2.id ≠ e.id) ∧
    (∀ pr ∈ (resolveEnemyAttack ts map e playerPos ph enemies tracker now
      lastAttack dice).tracker, pr.1 ≠ e.id) := by
  have houter : sqrtLeB (sqDist e.position (adjustedPlayerPos ts playerPos))
      (ts * 2) = true := by
    rw [sqrtLeB, decide_eq_true_eq]
    exact ⟨by positivity, by nlinarith⟩
  have hmelB : sqrtLeB (sqDist e.position (adjustedPlayerPos ts playerPos))
      (ts * 1) = true := by
    rw [sqrtLeB, decide_eq_true_eq]
    exact ⟨by positivity, hmelee⟩
  simp only [resolveEnemyAttack, houter, hmelB, if_true]
  rw [if_pos hty]
  refine ⟨rfl, rfl, rfl, ?_, ?_⟩
  · intro e2 he2
    have := List.of_mem_filter he2
    simpa using this
  · intro pr hpr
    have := List.of_mem_filter hpr
    simpa using this

/-- Witness for the C7 theorem: a concrete grunt in contact removes
itself, deletes its tracker entry, and costs the player exactly 1
point. -/
theorem grunt_contact_kamikaze_witness :
    (resolveEnemyAttack 32 [['.']]
      ⟨"g1", "grunt", ⟨0, 0⟩, 3, 3, 6 / 5, 2, 350, 3⟩ ⟨0, 0⟩ 100
      [⟨"g1", "grunt", ⟨0, 0⟩, 3, 3, 6 / 5, 2, 350, 3⟩]
      [("g1", ⟨⟨0, 0⟩, 0, none⟩)] 0 0 1).playerHealth = 99 ∧
    (resolveEnemyAttack 32 [['.']]
      ⟨"g1", "grunt", ⟨0, 0⟩, 3, 3, 6 / 5, 2, 350, 3⟩ ⟨0, 0⟩ 100
      [⟨"g1", "grunt", ⟨0, 0⟩, 3, 3, 6 / 5, 2, 350, 3⟩]
      [("g1", ⟨⟨0, 0⟩, 0, none⟩)] 0 0 1).enemies = [] ∧
    (resolveEnemyAttack 32 [['.']]
      ⟨"g1", "grunt", ⟨0, 0⟩, 3, 3, 6 / 5, 2, 350, 3⟩ ⟨0, 0⟩ 100
      [⟨"g1", "grunt", ⟨0, 0⟩, 3, 3, 6 / 5, 2, 350, 3⟩]
      [("g1", ⟨⟨0, 0⟩, 0, none⟩)] 0 0 1).tracker = [] := by
  have hmelee : sqDist (⟨"g1", "grunt", ⟨0, 0⟩, 3, 3, 6 / 5, 2, 350, 3⟩ :
      EnemyConfig).position (adjustedPlayerPos 32 ⟨0, 0⟩) ≤ ((32 : ℚ) * 1) ^ 2 := by
    rw [adjustedOrc_eval]
    rw [show (⟨"g1", "grunt", ⟨0, 0⟩, 3, 3, 6 / 5, 2, 350, 3⟩ : EnemyConfig).position
      = ⟨0, 0⟩ from rfl]
    rw [sqDist]
    norm_num
  have h := grunt_contact_kamikaze 32 [['.']]
    ⟨"g1", "grunt", ⟨0, 0⟩, 3, 3, 6 / 5, 2, 350, 3⟩ ⟨0, 0⟩ 100
    [⟨"g1", "grunt", ⟨0, 0⟩, 3, 3, 6 / 5, 2, 350, 3⟩]
    [("g1", ⟨⟨0, 0⟩, 0, none⟩)] 0 0 1 rfl (by norm_num) hmelee
  refine ⟨?_, ?_, ?_⟩
  · rw [h.1]
    norm_num
  · rw [h.2.1]
    simp
  · rw [h.2.2.1]
    simp

/-- C8: an enemy that stayed within 0.1 tile of its tracked sample
position for more than 1000 ms yields an escape vector: on first
detection a non-zero one of magnitude 1.5 (given the random heading is
a unit vector), cached in the record with its clearing `setTimeout`
scheduled exactly 1500 ms ahead; while cached, the same vector keeps
being returned; the clear callback always leaves `randomDirection`
empty so normal behavior resumes; and the movement blend weighs the
escape vector 2.5 against 0.2 for the chase direction and 0.5 for
repulsion, with the optional jitter bounded by ±0.4 per axis. -/
theorem stuck_escape_vector_spec (ts : ℚ) (r : StuckRec) (current : Vec2)
    (now : ℤ) (randUnit : Vec2)
    (hnear : sqrtGtB (sqDist current r.position) (ts * (1 / 10)) = false)
    (hdur : 1000 < now - r.timeStuck) :
    (r.randomDirection = none → randUnit.x ^ 2 + randUnit.y ^ 2 = 1 →
      ∃ v, (checkAndHandleStuckEnemy ts (some r) current now randUnit).escapeVector
          = some v ∧
        v ≠ ⟨0, 0⟩ ∧
        (checkAndHandleStuckEnemy ts (some r) current now
          randUnit).tracker.randomDirection = some v ∧
        (checkAndHandleStuckEnemy ts (some r) current now randUnit).clearAt
          = some (now + 1500)) ∧
    (∀ w, r.randomDirection = some w →
      (checkAndHandleStuckEnemy ts (some r) current now randUnit).escapeVector
        = some w) ∧
    (∀ (rq : Option StuckRec) (r2 : StuckRec),
      clearEscapeDirection rq = some r2 → r2.randomDirection = none) ∧
    (∀ (dir rep v : Vec2) (j1 j2 : ℚ),
      combinedDirection dir rep (some v) false j1 j2 =
        ⟨v.x * (5 / 2) + dir.x * (1 / 5) + rep.x * (1 / 2),
         v.y * (5 / 2) + dir.y * (1 / 5) + rep.y * (1 / 2)⟩) ∧
    (∀ (dir rep v : Vec2) (j1 j2 : ℚ), 0 ≤ j1 → j1 ≤ 1 → 0 ≤ j2 → j2 ≤ 1 →
      |(combinedDirection dir rep (some v) true j1 j2).x -
        (v.x * (5 / 2) + dir.x * (1 / 5) + rep.x * (1 / 2))| ≤ 2 / 5 ∧
      |(combinedDirection dir rep (some v) true j1 j2).y -
        (v.y * (5 / 2) + dir.y * (1 / 5) + rep.y * (1 / 2))| ≤ 2 / 5) := by
  refine ⟨?_, ?_, ?_, ?_, ?_⟩
  · intro hfresh hunit
    rw [checkAndHandleStuckEnemy, hnear]
    simp only [Bool.false_eq_true, if_false, if_pos hdur, hfresh]
    refine ⟨⟨randUnit.x * (3 / 2), randUnit.y * (3 / 2)⟩, by trivial, ?_,
      by trivial, by trivial⟩
    intro hzero
    have hx : randUnit.x * (3 / 2) = 0 := congrArg Vec2.x hzero
    have hy : randUnit.y * (3 / 2) = 0 := congrArg Vec2.y hzero
    have hx0 : randUnit.x = 0 := by linarith [mul_eq_zero.mp hx]
    have hy0 : randUnit.y = 0 := by linarith [mul_eq_zero.mp hy]
    rw [hx0, hy0] at hunit
    norm_num at hunit
  · intro w hw
    rw [checkAndHandleStuckEnemy, hnear]
    simp only [Bool.false_eq_true, if_false, if_pos hdur, hw]
  · intro rq r2 hclr
    cases rq with
    | none =>
      rw [clearEscapeDirection] at hclr
      cases hclr
    | some r3 =>
      rw [clearEscapeDirection, Option.map_some'] at hclr
      have := Option.some.inj hclr
      rw [← this]
  · intro dir rep v j1 j2
    rw [combinedDirection]
    simp
  · intro dir rep v j1 j2 h1a h1b h2a h2b
    rw [combinedDirection]
    simp only [if_pos rfl]
    constructor
    · show |v.x * (5 / 2) + dir.x * (1 / 5) + rep.x * (1 / 2) +
        (j1 - 1 / 2) * (4 / 5) - (v.x * (5 / 2) + dir.x * (1 / 5) + rep.x * (1 / 2))|
        ≤ 2 / 5
      rw [show v.x * (5 / 2) + dir.x * (1 / 5) + rep.x * (1 / 2) +
        (j1 - 1 / 2) * (4 / 5) - (v.x * (5 / 2) + dir.x * (1 / 5) + rep.x * (1 / 2))
        = (j1 - 1 / 2) * (4 / 5) from by ring]
      rw [abs_le]
      constructor <;> nlinarith
    · show |v.y * (5 / 2) + dir.y * (1 / 5) + rep.y * (1 / 2) +
        (j2 - 1 / 2) * (4 / 5) - (v.y * (5 / 2) + dir.y * (1 / 5) + rep.y * (1 / 2))|
        ≤ 2 / 5
      rw [show v.y * (5 / 2) + dir.y * (1 / 5) + rep.y * (1 / 2) +
        (j2 - 1 / 2) * (4 / 5) - (v.y * (5 / 2) + dir.y * (1 / 5) + rep.y * (1 / 2))
        = (j2 - 1 / 2) * (4 / 5) from by ring]
      rw [abs_le]
      constructor <;> nlinarith

/-- Witness for the C8 theorem: an enemy stuck at the origin for 1500 ms
with unit heading `(1, 0)` gets the escape vector `(1.5, 0)`, cached,
with the clear scheduled at 3000 ms, and the clear callback empties the
cached direction. -/
theorem stuck_escape_vector_spec_witness :
    (checkAndHandleStuckEnemy 32 (some ⟨⟨0, 0⟩, 0, none⟩) ⟨0, 0⟩ 1500
      ⟨1, 0⟩).escapeVector = some ⟨3 / 2, 0⟩ ∧
    (checkAndHandleStuckEnemy 32 (some ⟨⟨0, 0⟩, 0, none⟩) ⟨0, 0⟩ 1500
      ⟨1, 0⟩).clearAt = some 3000 ∧
    (⟨3 / 2, 0⟩ : Vec2) ≠ ⟨0, 0⟩ ∧
    combinedDirection ⟨1, 0⟩ ⟨0, 1⟩ (some ⟨3 / 2, 0⟩) false 0 0 =
      ⟨(3 / 2) * (5 / 2) + 1 * (1 / 5) + 0 * (1 / 2),
       0 * (5 / 2) + 0 * (1 / 5) + 1 * (1 / 2)⟩ := by
  have hnear : sqrtGtB (sqDist (⟨0, 0⟩ : Vec2)
      (⟨⟨0, 0⟩, 0, none⟩ : StuckRec).position) ((32 : ℚ) * (1 / 10)) = false := by
    rw [sqrtGtB, decide_eq_false_iff_not]
    rw [show (⟨⟨0, 0⟩, 0, none⟩ : StuckRec).position = ⟨0, 0⟩ from rfl, sqDist]
    push_neg
    norm_num
  have hdur : (1000 : ℤ) < 1500 - (⟨⟨0, 0⟩, 0, none⟩ : StuckRec).timeStuck := by
    norm_num
  obtain ⟨hcreate, _, _, hblend, _⟩ :=
    stuck_escape_vector_spec 32 ⟨⟨0, 0⟩, 0, none⟩ ⟨0, 0⟩ 1500 ⟨1, 0⟩ hnear hdur
  obtain ⟨v, hesc, hnz, _, hclear⟩ := hcreate rfl (by norm_num)
  have hv : v = ⟨3 / 2, 0⟩ := by
    have h1 : (checkAndHandleStuckEnemy 32 (some ⟨⟨0, 0⟩, 0, none⟩) ⟨0, 0⟩ 1500
        ⟨1, 0⟩).escapeVector = some ⟨3 / 2, 0⟩ := by
      rw [checkAndHandleStuckEnemy, hnear]
      simp only [Bool.false_eq_true, if_false, if_pos hdur]
      norm_num [Vec2.mk.injEq]
    rw [h1] at hesc
    exact (Option.some.inj hesc).symm
  rw [hv] at hesc hnz
  refine ⟨hesc, by rw [hclear]; norm_num, hnz, hblend ⟨1, 0⟩ ⟨0, 1⟩ ⟨3 / 2, 0⟩ 0 0⟩

/-- C2: spawner health is monotonically non-increasing under player
attack damage and clamped at 0; the attack that drives a cell's health
to 0 marks the tracker entry `false` and rewrites the grid cell to the
floor code `'.'` (so a subsequent tile query no longer returns `'B'` or
`'G'`); an attack never reactivates a cell; and once the tracker entry
is `false`, both spawn functions are permanent no-ops: they spawn
nothing, keep the entry `false`, and leave the grid untouched. -/
theorem spawner_destruction_invariants :
    (∀ (ts : ℚ) (s : SpawnerSys) (playerPos : Vec2) (dir : Dir) (buff : Bool)
        (k : ℤ × ℤ) (h : ℚ), s.health k = some h → 0 ≤ h →
      ∃ h2, (handlePlayerAttackSpawner ts s playerPos dir buff).health k = some h2 ∧
        0 ≤ h2 ∧ h2 ≤ h) ∧
    (∀ (ts : ℚ) (s : SpawnerSys) (playerPos : Vec2) (dir : Dir) (buff : Bool)
        (k : ℤ × ℤ),
      (handlePlayerAttackSpawner ts s playerPos dir buff).health k = some 0 →
      s.health k ≠ some 0 →
      (handlePlayerAttackSpawner ts s playerPos dir buff).active k = some false ∧
      tileAt? (handlePlayerAttackSpawner ts s playerPos dir buff).map k.1 k.2
        = some '.') ∧
    (∀ (ts : ℚ) (s : SpawnerSys) (playerPos : Vec2) (dir : Dir) (buff : Bool)
        (k : ℤ × ℤ), s.active k = some false →
      (handlePlayerAttackSpawner ts s playerPos dir buff).active k = some false) ∧
    (∀ (s : SpawnerSys) (x y now : ℤ), s.active (x, y) = some false →
      (spawnGhostFromGenerator s x y now).2 = false ∧
      (spawnGruntFromGenerator s x y now).2 = false ∧
      (spawnGhostFromGenerator s x y now).1.active (x, y) = some false ∧
      (spawnGruntFromGenerator s x y now).1.active (x, y) = some false ∧
      (spawnGhostFromGenerator s x y now).1.map = s.map ∧
      (spawnGruntFromGenerator s x y now).1.map = s.map) := by
  have hdmg : ∀ buff : Bool, 0 < spawnerDamage buff := by
    intro buff
    rw [spawnerDamage]
    split_ifs <;> norm_num
  refine ⟨?_, ?_, ?_, ?_⟩
  · intro ts s playerPos dir buff k h hk hnn
    rcases handleAttack_result ts s playerPos dir buff with
      heq | ⟨kk, t, h', htile, hbg, hh', hpos, hcase⟩
    · rw [heq]
      exact ⟨h, hk, hnn, le_rfl⟩
    · rcases hcase with ⟨_, heq⟩ | ⟨_, heq⟩ <;> rw [heq] <;>
        · show ∃ h2, updKey s.health kk (some (max 0 (h' - spawnerDamage buff))) k
              = some h2 ∧ 0 ≤ h2 ∧ h2 ≤ h
          by_cases hkk : k = kk
          · subst hkk
            rw [hk] at hh'
            have hh'' : h' = h := (Option.some.inj hh').symm
            rw [hh'']
            refine ⟨max 0 (h - spawnerDamage buff), by simp [updKey], le_max_left _ _, ?_⟩
            have := hdmg buff
            exact max_le hnn (by linarith)
          · exact ⟨h, by simp [updKey, hkk, hk], hnn, le_rfl⟩
  · intro ts s playerPos dir buff k h0 hne
    rcases handleAttack_result ts s playerPos dir buff with
      heq | ⟨kk, t, h', htile, hbg, hh', hpos, hcase⟩
    · rw [heq] at h0
      exact absurd h0 hne
    · rcases hcase with ⟨hnd, heq⟩ | ⟨hd, heq⟩
      · rw [heq] at h0
        by_cases hkk : k = kk
        · subst hkk
          simp only [updKey, if_pos rfl] at h0
          exact absurd (le_of_eq (Option.some.inj h0)) hnd
        · simp only [updKey, if_neg hkk] at h0
          exact absurd h0 hne
      · rw [heq] at h0
        rw [heq]
        by_cases hkk : k = kk
        · subst hkk
          exact ⟨by simp [updKey], tileAt?_setTile s.map k.1 k.2 '.' t htile⟩
        · simp only [updKey, if_neg hkk] at h0
          exact absurd h0 hne
  · intro ts s playerPos dir buff k hact
    rcases handleAttack_result ts s playerPos dir buff with
      heq | ⟨kk, t, h', htile, hbg, hh', hpos, hcase⟩
    · rw [heq]
      exact hact
    · rcases hcase with ⟨_, heq⟩ | ⟨_, heq⟩ <;> rw [heq]
      · exact hact
      · by_cases hkk : k = kk
        · subst hkk
          simp [updKey]
        · show updKey s.active kk (some false) k = some false
          rw [updKey, if_neg hkk]
          exact hact
  · intro s x y now hact
    have hgB := isSpawnerActive_of_false s x y 'B' hact
    have hgG := isSpawnerActive_of_false s x y 'G' hact
    refine ⟨?_, ?_, ?_, ?_, ?_, ?_⟩ <;>
      simp [spawnGhostFromGenerator, spawnGruntFromGenerator, hgB, hgG,
        markSpawnerDestroyed, updKey]

/-- Witness for the C2 theorem: a 1×3 grid with a grunt spawner of
health 5 at cell (1,0); one unbuffed 7-point hit drives it to 0, marks
it inactive, rewrites the cell to `'.'`, and a later spawn attempt from
the destroyed cell spawns nothing. -/
theorem spawner_destruction_invariants_witness :
    (handlePlayerAttackSpawner 32
      (⟨[['.', 'G', '.']], fun k => if k = (1, 0) then some 5 else none,
        fun _ => none, fun _ => none, fun _ => none⟩ : SpawnerSys)
      ⟨0, 0⟩ .east false).active (1, 0) = some false ∧
    tileAt? (handlePlayerAttackSpawner 32
      (⟨[['.', 'G', '.']], fun k => if k = (1, 0) then some 5 else none,
        fun _ => none, fun _ => none, fun _ => none⟩ : SpawnerSys)
      ⟨0, 0⟩ .east false).map 1 0 = some '.' ∧
    (spawnGruntFromGenerator (handlePlayerAttackSpawner 32
      (⟨[['.', 'G', '.']], fun k => if k = (1, 0) then some 5 else none,
        fun _ => none, fun _ => none, fun _ => none⟩ : SpawnerSys)
      ⟨0, 0⟩ .east false) 1 0 99999).2 = false := by
  obtain ⟨_, hdestroy, _, hnoop⟩ := spawner_destruction_invariants
  have hfl : ⌊((0 : ℚ) + 32 / 2) / 32⌋ = 0 := by norm_num
  have hres : (handlePlayerAttackSpawner 32
      (⟨[['.', 'G', '.']], fun k => if k = (1, 0) then some 5 else none,
        fun _ => none, fun _ => none, fun _ => none⟩ : SpawnerSys)
      ⟨0, 0⟩ .east false).health (1, 0) = some 0 := by
    simp only [handlePlayerAttackSpawner, dirDelta, hfl]
    norm_num [tileAt?, updKey, spawnerDamage, markSpawnerDestroyed]
  have h2 := hdestroy 32
    (⟨[['.', 'G', '.']], fun k => if k = (1, 0) then some 5 else none,
      fun _ => none, fun _ => none, fun _ => none⟩ : SpawnerSys)
    ⟨0, 0⟩ .east false (1, 0) hres (by simp)
  exact ⟨h2.1, h2.2, (hnoop _ 1 0 99999 h2.1).2.1⟩

/-- C3: a successful spawn requires at least the per-type minimum
interval (2500 ms ghost, 4000 ms grunt) since the spawner's own
recorded last spawn and records the new spawn time; two consecutive
successful spawns from the same cell are at least the interval apart;
and every spawn attempt first re-validates the centralized active
tracker and the grid cell code, spawning nothing when either check
fails. -/
theorem spawner_min_interval_and_revalidation :
    (∀ (s : SpawnerSys) (x y now : ℤ) (s2 : SpawnerSys),
      spawnGhostFromGenerator s x y now = (s2, true) →
      ((∀ t1, s.lastGhostSpawnTimes (x, y) = some t1 → 2500 ≤ now - t1) ∧
        s2.lastGhostSpawnTimes (x, y) = some now ∧
        (isSpawnerActive s x y 'B').1 = true ∧ tileAt? s.map x y = some 'B')) ∧
    (∀ (s : SpawnerSys) (x y now : ℤ) (s2 : SpawnerSys),
      spawnGruntFromGenerator s x y now = (s2, true) →
      ((∀ t1, s.lastGruntSpawnTimes (x, y) = some t1 → 4000 ≤ now - t1) ∧
        s2.lastGruntSpawnTimes (x, y) = some now ∧
        (isSpawnerActive s x y 'G').1 = true ∧ tileAt? s.map x y = some 'G')) ∧
    (∀ (s : SpawnerSys) (x y t1 t2 : ℤ) (s1 s2 : SpawnerSys),
      spawnGhostFromGenerator s x y t1 = (s1, true) →
      spawnGhostFromGenerator s1 x y t2 = (s2, true) → 2500 ≤ t2 - t1) ∧
    (∀ (s : SpawnerSys) (x y t1 t2 : ℤ) (s1 s2 : SpawnerSys),
      spawnGruntFromGenerator s x y t1 = (s1, true) →
      spawnGruntFromGenerator s1 x y t2 = (s2, true) → 4000 ≤ t2 - t1) ∧
    (∀ (s : SpawnerSys) (x y now : ℤ),
      ((isSpawnerActive s x y 'B').1 = false ∨ tileAt? s.map x y ≠ some 'B') →
      (spawnGhostFromGenerator s x y now).2 = false) ∧
    (∀ (s : SpawnerSys) (x y now : ℤ),
      ((isSpawnerActive s x y 'G').1 = false ∨ tileAt? s.map x y ≠ some 'G') →
      (spawnGruntFromGenerator s x y now).2 = false) := by
  refine ⟨?_, ?_, ?_, ?_, ?_, ?_⟩
  · intro s x y now s2 h
    obtain ⟨ha, ht, hint, hrec⟩ := spawnGhost_success_elim s x y now s2 h
    exact ⟨hint, hrec, ha, ht⟩
  · intro s x y now s2 h
    obtain ⟨ha, ht, hint, hrec⟩ := spawnGrunt_success_elim s x y now s2 h
    exact ⟨hint, hrec, ha, ht⟩
  · intro s x y t1 t2 s1 s2 h1 h2
    obtain ⟨_, _, _, hrec1⟩ := spawnGhost_success_elim s x y t1 s1 h1
    obtain ⟨_, _, hint2, _⟩ := spawnGhost_success_elim s1 x y t2 s2 h2
    exact hint2 t1 hrec1
  · intro s x y t1 t2 s1 s2 h1 h2
    obtain ⟨_, _, _, hrec1⟩ := spawnGrunt_success_elim s x y t1 s1 h1
    obtain ⟨_, _, hint2, _⟩ := spawnGrunt_success_elim s1 x y t2 s2 h2
    exact hint2 t1 hrec1
  · intro s x y now hbad
    rcases hres : spawnGhostFromGenerator s x y now with ⟨s2, b⟩
    cases b
    · rfl
    · exfalso
      obtain ⟨ha, ht, _, _⟩ := spawnGhost_success_elim s x y now s2 hres
      rcases hbad with hf | htn
      · rw [ha] at hf
        cases hf
      · exact htn ht
  · intro s x y now hbad
    rcases hres : spawnGruntFromGenerator s x y now with ⟨s2, b⟩
    cases b
    · rfl
    · exfalso
      obtain ⟨ha, ht, _, _⟩ := spawnGrunt_success_elim s x y now s2 hres
      rcases hbad with hf | htn
      · rw [ha] at hf
        cases hf
      · exact htn ht

/-- Witness for the C3 theorem: on a 1×1 ghost-spawner grid, a spawn at
5000 ms succeeds, the follow-up at 7500 ms succeeds, the theorem yields
the 2500 ms spacing, and an attempt over a floor cell spawns nothing. -/
theorem spawner_min_interval_and_revalidation_witness :
    (spawnGhostFromGenerator
      (⟨[['B']], fun _ => none, fun _ => none, fun _ => none, fun _ => none⟩ :
        SpawnerSys) 0 0 5000).2 = true ∧
    (2500 : ℤ) ≤ 7500 - 5000 ∧
    (spawnGhostFromGenerator
      (⟨[['.']], fun _ => none, fun _ => none, fun _ => none, fun _ => none⟩ :
        SpawnerSys) 0 0 5000).2 = false := by
  obtain ⟨_, _, hcons, _, hreval, _⟩ := spawner_min_interval_and_revalidation
  have hfst : (spawnGhostFromGenerator
      (⟨[['B']], fun _ => none, fun _ => none, fun _ => none, fun _ => none⟩ :
        SpawnerSys) 0 0 5000).2 = true := by decide
  have h1 : spawnGhostFromGenerator
      (⟨[['B']], fun _ => none, fun _ => none, fun _ => none, fun _ => none⟩ :
        SpawnerSys) 0 0 5000 =
      ((spawnGhostFromGenerator
        (⟨[['B']], fun _ => none, fun _ => none, fun _ => none, fun _ => none⟩ :
          SpawnerSys) 0 0 5000).1, true) := by
    rw [← hfst]
  have hsnd : (spawnGhostFromGenerator
      ((spawnGhostFromGenerator
        (⟨[['B']], fun _ => none, fun _ => none, fun _ => none, fun _ => none⟩ :
          SpawnerSys) 0 0 5000).1) 0 0 7500).2 = true := by decide
  have h2 : spawnGhostFromGenerator
      ((spawnGhostFromGenerator
        (⟨[['B']], fun _ => none, fun _ => none, fun _ => none, fun _ => none⟩ :
          SpawnerSys) 0 0 5000).1) 0 0 7500 =
      ((spawnGhostFromGenerator
        ((spawnGhostFromGenerator
          (⟨[['B']], fun _ => none, fun _ => none, fun _ => none, fun _ => none⟩ :
            SpawnerSys) 0 0 5000).1) 0 0 7500).1, true) := by
    rw [← hsnd]
  refine ⟨hfst, hcons _ 0 0 5000 7500 _ _ h1 h2, ?_⟩
  refine hreval _ 0 0 5000 (Or.inr ?_)
  decide

lemma lifeOps_dead_zero : ∀ (ops : List LifeOp) (p : PlayerLife),
    p.playerDead = true →
    (runLifeOps p ops).2 = 0 ∧ (runLifeOps p ops).1.playerDead = true := by
  intro ops
  induction ops with
  | nil =>
    intro p hd
    exact ⟨rfl, hd⟩
  | cons op rest ih =>
    intro p hd
    cases op with
    | drain =>
      have hstep : drainTick p = p := by
        rw [drainTick, hd]
        simp
      rw [runLifeOps, hstep]
      exact ih p hd
    | check =>
      have hc : deathCheck p = (p, false) := by
        rw [deathCheck, if_neg]
        intro hcon
        exact hcon.2 hd
      rw [runLifeOps, hc]
      simpa using ih p hd

lemma lifeOps_at_most_once : ∀ (ops : List LifeOp) (p : PlayerLife),
    (runLifeOps p ops).2 ≤ 1 := by
  intro ops
  induction ops with
  | nil =>
    intro p
    simp [runLifeOps]
  | cons op rest ih =>
    intro p
    cases op with
    | drain =>
      rw [runLifeOps]
      exact ih (drainTick p)
    | check =>
      by_cases hd : p.health ≤ 0 ∧ ¬p.playerDead
      · have hc : deathCheck p = ({ p with playerDead := true }, true) := by
          rw [deathCheck, if_pos hd]
        have hz := (lifeOps_dead_zero rest { p with playerDead := true } rfl).1
        rw [runLifeOps, hc]
        simp [hz]
      · have hc : deathCheck p = (p, false) := by
          rw [deathCheck, if_neg hd]
        rw [runLifeOps, hc]
        simpa using ih p

/-- C9: while the player is alive, each firing of the 1-second drain
interval lowers health by exactly 1, clamped at zero and never negative;
the death check fires the transition when health has reached 0 and the
flag is unset; once `playerDead` is set no further transition ever
fires; and over any sequence of drain ticks and death checks the death
transition fires at most once. -/
theorem player_drain_clamped_death_once :
    (∀ p : PlayerLife, p.playerDead = false → 0 ≤ p.health →
      (drainTick p).health = max 0 (p.health - 1) ∧ 0 ≤ (drainTick p).health) ∧
    (∀ p : PlayerLife, p.health ≤ 0 → p.playerDead = false →
      (deathCheck p).2 = true ∧ (deathCheck p).1.playerDead = true) ∧
    (∀ (p : PlayerLife) (ops : List LifeOp), p.playerDead = true →
      (runLifeOps p ops).2 = 0) ∧
    (∀ (p : PlayerLife) (ops : List LifeOp), (runLifeOps p ops).2 ≤ 1) := by
  refine ⟨?_, ?_, ?_, ?_⟩
  · intro p hd hh
    rw [drainTick, hd]
    simp only [Bool.false_eq_true, if_false]
    by_cases hpos : 0 < p.health
    · rw [if_pos hpos]
      exact ⟨rfl, le_max_left _ _⟩
    · rw [if_neg hpos]
      have h0 : p.health = 0 := le_antisymm (not_lt.mp hpos) hh
      refine ⟨?_, hh⟩
      rw [h0]
      norm_num
  · intro p hh hd
    have hcond : p.health ≤ 0 ∧ ¬p.playerDead := ⟨hh, by rw [hd]; exact Bool.false_ne_true⟩
    rw [deathCheck, if_pos hcond]
    exact ⟨rfl, rfl⟩
  · intro p ops hd
    exact (lifeOps_dead_zero ops p hd).1
  · intro p ops
    exact lifeOps_at_most_once ops p

/-- Witness for the C9 theorem: from health 1 a drain clamps to 0, the
death check then fires, a dead player's ops fire nothing, and a
drain/check sequence from health 1 fires at most once. -/
theorem player_drain_clamped_death_once_witness :
    (drainTick ⟨1, false⟩).health = 0 ∧
    (deathCheck ⟨0, false⟩).2 = true ∧
    (runLifeOps ⟨0, true⟩ [.check, .drain] ).2 = 0 ∧
    (runLifeOps ⟨1, false⟩ [.drain, .check, .drain, .check]).2 ≤ 1 := by
  obtain ⟨h1, h2, h3, h4⟩ := player_drain_clamped_death_once
  refine ⟨?_, (h2 ⟨0, false⟩ (by norm_num) rfl).1,
    h3 ⟨0, true⟩ [.check, .drain] rfl, h4 ⟨1, false⟩ _⟩
  have := (h1 ⟨1, false⟩ rfl (by norm_num)).1
  rw [this]
  norm_num

end BabylonMode

end Adventure
